import Mathlib

/-!
Verification development for the energy-aware job-shop scheduling code
(`src/scheduling`).  The Python classes `Operation`, `Machine`, `Job`,
`Instance` and `Solution`, together with the heuristics in
`optim/constructive.py`, `optim/neighborhoods.py` and `optim/local_search.py`,
are embedded shallowly: every mutable object becomes an immutable structure,
mutation becomes explicit state passing, and code paths that raise Python
exceptions return `Except PyErr`.
-/

namespace JSP

/-- Python exception outcomes that the embedded code paths can produce. -/
inductive PyErr where
  | attributeError (attr : String)
  | valueError
  | assertionError
  | typeError
  | stopIteration
  | keyError
deriving DecidableEq, Repr

deriving instance DecidableEq for Except

/-- `OperationScheduleInfo` from `instance/operation.py`: the data recorded when
an operation is scheduled. -/
structure OperationScheduleInfo where
  machine_id : Int
  schedule_time : Int
  duration : Int
  energy_consumption : Int
deriving DecidableEq, Repr

/-- `Operation` from `instance/operation.py`.  A predecessor operation is
represented by its `schedule_info` snapshot: the only fields of a predecessor
the code ever reads (`assigned`, `end_time`) are functions of that field.
The `successors` list is never read by the code under verification and is
omitted.  `machine_options` models the Python dict `machine_id -> (duration,
energy)` as an association list with distinct keys. -/
structure Operation where
  job_id : Int
  operation_id : Int
  predecessors : List (Option OperationScheduleInfo)
  machine_options : List (Int × Int × Int)
  schedule_info : Option OperationScheduleInfo
deriving DecidableEq, Repr

/-- `pred.assigned` for a predecessor snapshot. -/
def infoAssigned : Option OperationScheduleInfo → Bool
  | some _ => true
  | none => false

/-- `pred.end_time` for a predecessor snapshot (`-1` when unassigned, else
`schedule_time + duration`, mirroring `Operation.end_time`). -/
def infoEnd : Option OperationScheduleInfo → Int
  | some i => i.schedule_time + i.duration
  | none => -1

/-- `Operation.assigned`. -/
def Operation.assigned (op : Operation) : Bool := op.schedule_info.isSome

/-- `Operation.assigned_to`: assigned machine id, `-1` when unassigned. -/
def Operation.assigned_to (op : Operation) : Int :=
  match op.schedule_info with
  | some i => i.machine_id
  | none => -1

/-- `Operation.processing_time`: duration when assigned, `-1` otherwise. -/
def Operation.processing_time (op : Operation) : Int :=
  match op.schedule_info with
  | some i => i.duration
  | none => -1

/-- `Operation.start_time`: start time when assigned, `-1` otherwise. -/
def Operation.start_time (op : Operation) : Int :=
  match op.schedule_info with
  | some i => i.schedule_time
  | none => -1

/-- `Operation.end_time`: `start_time + processing_time` when assigned,
`-1` otherwise. -/
def Operation.end_time (op : Operation) : Int :=
  if op.assigned then op.start_time + op.processing_time else -1

/-- `Operation.energy`: energy consumption when assigned, `-1` otherwise. -/
def Operation.energy (op : Operation) : Int :=
  match op.schedule_info with
  | some i => i.energy_consumption
  | none => -1

/-- Lookup in the `machine_options` dict: `machine_id in options` and
`options[machine_id]`. -/
def optionsLookup (opts : List (Int × Int × Int)) (mid : Int) : Option (Int × Int) :=
  match opts.find? (fun e => e.1 == mid) with
  | some e => some (e.2.1, e.2.2)
  | none => none

/-- `Operation.is_ready(at_time)`: every predecessor is assigned and finishes
at or before `at_time` (the Python loop with early `return False`). -/
def Operation.is_ready (op : Operation) (at_time : Int) : Bool :=
  op.predecessors.all (fun p => infoAssigned p && decide (infoEnd p ≤ at_time))

/-- `Operation.min_start_time`: `0` when there is no predecessor or no assigned
predecessor, otherwise the max end time of the assigned predecessors. -/
def Operation.min_start_time (op : Operation) : Int :=
  if op.predecessors.isEmpty then 0
  else
    match ((op.predecessors.filter infoAssigned).map infoEnd).max? with
    | some v => v
    | none => 0

/-- `Operation.schedule(machine_id, at_time, check_success)`: returns the
Python return value together with the operation state after the call. -/
def Operation.schedule (op : Operation) (machine_id at_time : Int)
    (check_success : Bool) : Bool × Operation :=
  if op.assigned || (optionsLookup op.machine_options machine_id).isNone then
    (false, op)
  else if check_success && (!op.is_ready at_time || decide (at_time < op.min_start_time)) then
    (false, op)
  else
    match optionsLookup op.machine_options machine_id with
    | some (d, e) =>
        (true, { op with schedule_info := some ⟨machine_id, at_time, d, e⟩ })
    | none => (false, op)

/-- `Operation.schedule_at_min_time(machine_id, min_time)`. -/
def Operation.schedule_at_min_time (op : Operation) (machine_id min_time : Int) :
    Bool × Operation :=
  if op.assigned then (false, op)
  else op.schedule machine_id (max min_time op.min_start_time) true

/-- `Operation.reset()`: clears the schedule info and — as the source actually
does — also drops the predecessor links. -/
def Operation.reset (op : Operation) : Operation :=
  { op with predecessors := [], schedule_info := none }

/-- `Machine` from `instance/machine.py`.  `start_times_raw`/`stop_times_raw`
are the private `_start_times`/`_stop_times` event lists;
`scheduled_operations` holds the operations scheduled on the machine. -/
structure Machine where
  machine_id : Int
  set_up_time : Int
  set_up_energy : Int
  tear_down_time : Int
  tear_down_energy : Int
  min_consumption : Int
  end_time : Int
  scheduled_operations : List Operation
  start_times_raw : List Int
  stop_times_raw : List Int
  available_time : Int
deriving DecidableEq, Repr

/-- `sorted(...)` on a list of times (Python's sort is stable; so is
insertion sort). -/
def sortedInt (l : List Int) : List Int :=
  List.insertionSort (fun a b : Int => a ≤ b) l

/-- `Machine.reset()`. -/
def Machine.reset (m : Machine) : Machine :=
  { m with scheduled_operations := [], start_times_raw := [], stop_times_raw := [],
           available_time := 0 }

/-- `Machine.start_times` property: the recorded start events, sorted. -/
def Machine.start_times (m : Machine) : List Int := sortedInt m.start_times_raw

/-- `Machine.stop_times` property: the recorded stop events, sorted, with the
machine horizon `end_time` appended as an implicit stop when there are more
start than stop events. -/
def Machine.stop_times (m : Machine) : List Int :=
  if m.stop_times_raw.length < m.start_times_raw.length then
    sortedInt (m.stop_times_raw ++ [m.end_time])
  else sortedInt m.stop_times_raw

/-- `Machine.start(at_time)`: the two `assert` statements become
`assertionError` outcomes; on success the event is recorded and
`available_time` becomes `at_time + set_up_time`. -/
def Machine.start (m : Machine) (at_time : Int) : Except PyErr Machine :=
  if m.start_times_raw.length ≠ m.stop_times_raw.length then .error .assertionError
  else if ¬ m.available_time ≤ at_time then .error .assertionError
  else .ok { m with start_times_raw := m.start_times_raw ++ [at_time],
                    available_time := at_time + m.set_up_time }

/-- `Machine.stop(at_time)`. -/
def Machine.stop (m : Machine) (at_time : Int) : Except PyErr Machine :=
  if m.start_times_raw.length ≠ m.stop_times_raw.length + 1 then .error .assertionError
  else if ¬ m.available_time ≤ at_time then .error .assertionError
  else .ok { m with stop_times_raw := m.stop_times_raw ++ [at_time],
                    available_time := at_time + m.tear_down_time }

/-- `Machine.add_operation(operation, start_time)`: delegates to
`schedule_at_min_time`, asserts success, appends the operation and moves the
availability cursor to the operation's end time.  Returns the machine state,
the operation state and the actual start time. -/
def Machine.add_operation (m : Machine) (op : Operation) (start_time : Int) :
    Except PyErr (Machine × Operation × Int) :=
  let r := op.schedule_at_min_time m.machine_id start_time
  if r.1 = false then .error .assertionError
  else .ok ({ m with scheduled_operations := m.scheduled_operations ++ [r.2],
                     available_time := r.2.end_time }, r.2, r.2.start_time)

/-- `Machine.working_time`: pairs the i-th recorded stop with the i-th recorded
start, and counts an unterminated final run through to `end_time`. -/
def Machine.working_time (m : Machine) : Int :=
  let base := ((m.stop_times_raw.zip m.start_times_raw).map (fun p => p.1 - p.2)).sum
  if m.start_times_raw.length = m.stop_times_raw.length + 1 then
    base + (m.end_time - m.start_times_raw.getLastD 0)
  else base

/-- `Machine.total_energy_consumption`: setup/teardown energy (counted on the
sorted `start_times`/`stop_times` properties), operation energy, and idle
consumption. -/
def Machine.total_energy_consumption (m : Machine) : Int :=
  let e1 := (m.start_times.length : Int) * m.set_up_energy
  let e2 := (m.stop_times.length : Int) * m.tear_down_energy
  let eOps := (m.scheduled_operations.map Operation.energy).sum
  let total_processing :=
    (m.scheduled_operations.map (fun op => op.end_time - op.start_time)).sum
  let total_setup := (m.start_times.length : Int) * m.set_up_time
  let total_teardown := (m.stop_times.length : Int) * m.tear_down_time
  let idle := m.working_time - total_processing - total_setup - total_teardown
  e1 + e2 + eOps + idle * m.min_consumption

/-- `Machine.active` does not exist: the `Machine` class defines no attribute
or property named `active`, so the Python attribute lookup `machine.active`
raises `AttributeError`. -/
def Machine.active (_m : Machine) : Except PyErr Bool :=
  .error (.attributeError "active")

/-- `Job` from `instance/job.py` (the `_next_operation_index` cursor is not
read by any code under verification and is omitted). -/
structure Job where
  job_id : Int
  operations : List Operation
deriving DecidableEq, Repr

/-- `Job.completion_time`: sum of the processing times of all the job's
operations (`-1` entries included for unassigned ones). -/
def Job.completion_time (j : Job) : Int :=
  (j.operations.map Operation.processing_time).sum

/-- `Job.reset()`: resets every operation of the job. -/
def Job.reset (j : Job) : Job :=
  { j with operations := j.operations.map Operation.reset }

/-- `Instance` from `instance/instance.py`.  In Python `_operations` (dict
values, in file order), the jobs' operation lists and the machines'
`scheduled_operations` lists alias the same `Operation` objects; here each
view carries its own copy and every mutation is applied to all views. -/
structure Instance where
  machines : List Machine
  jobs : List Job
  operations : List Operation
deriving DecidableEq, Repr

/-- `Solution` from `solution.py`: a wrapper around the instance plus the
objective weights (`alpha`, `beta`, default 0.5 each). -/
structure Solution where
  inst : Instance
  alpha : Rat
  beta : Rat
deriving DecidableEq, Repr

/-- `Solution.all_operations` = `self._instance.operations`. -/
def Solution.all_operations (sol : Solution) : List Operation :=
  sol.inst.operations

/-- `Solution.is_feasible`: `all(op.assigned for op in self.all_operations)`. -/
def Solution.is_feasible (sol : Solution) : Bool :=
  sol.all_operations.all Operation.assigned

/-- `Solution.cmax`: `max(job.completion_time for job in jobs)`; `max()` of an
empty sequence raises `ValueError`. -/
def Solution.cmax (sol : Solution) : Except PyErr Int :=
  match (sol.inst.jobs.map Job.completion_time).max? with
  | some v => .ok v
  | none => .error .valueError

/-- `Solution.total_energy_consumption`: sum over machines. -/
def Solution.total_energy_consumption (sol : Solution) : Int :=
  (sol.inst.machines.map Machine.total_energy_consumption).sum

/-- `Solution.objective` = `alpha * total_energy + beta * cmax`. -/
def Solution.objective (sol : Solution) : Except PyErr Rat := do
  let c ← sol.cmax
  return sol.alpha * (sol.total_energy_consumption : Rat) + sol.beta * (c : Rat)

/-- `Solution.evaluate` = `int('inf') if not self.is_feasible else self.objective`.
In Python `int('inf')` is not an infinity sentinel: it raises
`ValueError: invalid literal for int() with base 10: 'inf'`. -/
def Solution.evaluate (sol : Solution) : Except PyErr Rat :=
  if sol.is_feasible then sol.objective else .error .valueError

/-- `Solution.reset()`: resets every machine, every job and every operation of
the instance. -/
def Solution.reset (sol : Solution) : Solution :=
  { sol with inst := { machines := sol.inst.machines.map Machine.reset,
                       jobs := sol.inst.jobs.map Job.reset,
                       operations := sol.inst.operations.map Operation.reset } }

/-- `Solution.__init__(instance, alpha=0.5, beta=0.5)` stores the instance and
the weights and calls `reset` (which mutates the shared instance). -/
def Solution.init (inst : Instance) (alpha beta : Rat) : Solution :=
  Solution.reset { inst := inst, alpha := alpha, beta := beta }

/-- `Solution.available_operations`: unassigned operations that are ready at
their own `min_start_time`. -/
def Solution.available_operations (sol : Solution) : List Operation :=
  sol.all_operations.filter (fun op => !op.assigned && op.is_ready op.min_start_time)

/-- `Solution.get_machine` models `self._instance.get_machine(machine_id)`:
a dict lookup that raises `KeyError` when the id is unknown. -/
def Solution.get_machine (sol : Solution) (mid : Int) : Except PyErr Machine :=
  match sol.inst.machines.find? (fun m => m.machine_id == mid) with
  | some m => .ok m
  | none => .error .keyError

/-- Replace an operation object: in Python a mutation through one reference is
seen by every alias, so the model rewrites the operation (identified by its
`(job_id, operation_id)` dict key) in every view. -/
def replaceOp (jid oid : Int) (op' : Operation) (op : Operation) : Operation :=
  if op.job_id = jid ∧ op.operation_id = oid then op' else op

/-- Apply an in-place mutation of one operation to all views of the instance
(flat operation list, job lists, machine lists). -/
def updateOpIn (sol : Solution) (jid oid : Int) (op' : Operation) : Solution :=
  { sol with inst :=
      { machines := sol.inst.machines.map (fun m =>
          { m with scheduled_operations :=
              m.scheduled_operations.map (replaceOp jid oid op') }),
        jobs := sol.inst.jobs.map (fun j =>
          { j with operations := j.operations.map (replaceOp jid oid op') }),
        operations := sol.inst.operations.map (replaceOp jid oid op') } }

/-- Apply an in-place mutation of one machine (identified by its id) to the
instance's machine list. -/
def updateMachineIn (sol : Solution) (mid : Int) (m' : Machine) : Solution :=
  { sol with inst :=
      { sol.inst with machines := sol.inst.machines.map (fun m =>
          if m.machine_id = mid then m' else m) } }

/-- The part of `Solution.schedule` after the `machine.active` lookup (never
reached at run time because the lookup itself raises, but embedded in full):
start the machine when stopped, then `machine.add_operation`. -/
def Solution.scheduleBody (sol : Solution) (op : Operation) (m : Machine)
    (a : Bool) : Except PyErr Solution := do
  let start_time := max m.available_time op.min_start_time
  let (m1, start1) ←
    if !a then do
      let start_up_time := max 0 (op.min_start_time - m.set_up_time)
      let m1 ← m.start start_up_time
      pure (m1, max m1.available_time (start_up_time + m.set_up_time))
    else pure (m, start_time)
  let r ← m1.add_operation op start1
  return updateMachineIn (updateOpIn sol op.job_id op.operation_id r.2.1)
    m.machine_id r.1

/-- `Solution.schedule(operation, machine)`: asserts that the operation is
available, then evaluates `machine.active` — which raises `AttributeError`
because `Machine` defines no such attribute. -/
def Solution.schedule (sol : Solution) (op : Operation) (m : Machine) :
    Except PyErr Solution :=
  if op ∈ sol.available_operations then
    m.active >>= Solution.scheduleBody sol op m
  else .error .assertionError

/-! ### `Greedy` from `optim/constructive.py` -/

/-- The machine id of the first `(ready operation, admissible machine)` pair
visited by `Greedy.run`'s scan over `available_ops`. -/
def firstOptionMachineId : List Operation → Option Int
  | [] => none
  | op :: rest =>
    match op.machine_options with
    | [] => firstOptionMachineId rest
    | (mid, _, _) :: _ => some mid

/-- The trailing loop of `Greedy.run`:
`for machine in instance.machines: if machine.active: ...` — the `machine.active`
lookup raises `AttributeError` as soon as the instance has a machine. -/
def greedyFinalStop (sol : Solution) : Except PyErr Solution :=
  match sol.inst.machines with
  | [] => .ok sol
  | _ :: _ => .error (.attributeError "active")

/-- `Greedy.run(instance)`.  The `while` loop's body always raises or breaks on
its first iteration, so the embedding needs no recursion:
* `planned < total` fails only when the instance has no operation;
* with no ready operation the code calls `instance.machines()` — calling a
  list raises `TypeError`;
* otherwise the scan over `(ready op, admissible machine)` pairs evaluates
  `machine.active` for the first pair, after the `instance.get_machine`
  dict lookup (a `KeyError` when the machine id is unknown);
* when no pair exists at all (`best_option is None`) the loop breaks and the
  trailing stop loop runs. -/
def Greedy.run (inst : Instance) : Except PyErr Solution :=
  let solution := Solution.init inst (1/2) (1/2)
  if inst.operations.length = 0 then
    greedyFinalStop solution
  else
    match solution.available_operations with
    | [] => .error .typeError
    | avail =>
      match firstOptionMachineId avail with
      | none => greedyFinalStop solution
      | some mid =>
        match solution.get_machine mid with
        | .ok _ => .error (.attributeError "active")
        | .error e => .error e

/-! ### Neighborhoods from `optim/neighborhoods.py`

Every candidate is produced from `new_sol = copy.deepcopy(sol)`.  The loops
below thread the live (input) solution graph explicitly through their
accumulator; each candidate body reads the live graph, takes a value copy of
it, and applies all trial mutations to the copy only, exactly as the source
applies them to `new_sol`. -/

/-- `sorted(ops, key=lambda o: o.start_time)` (a stable sort, like Python's). -/
def sortOps (l : List Operation) : List Operation :=
  List.insertionSort (fun a b : Operation => a.start_time ≤ b.start_time) l

/-- All index pairs `i < j` of a list, in the order of the two nested `for`
loops of `best_neighbor` / `first_better_neighbor`, as element pairs. -/
def pairsOf {α : Type} : List α → List (α × α)
  | [] => []
  | x :: xs => xs.map (fun y => (x, y)) ++ pairsOf xs

/-- The candidate enumeration of `MyNeighborhood1`: for each machine of the
neighborhood's instance (= the solution's instance), each pair of its
scheduled operations sorted by start time. -/
def n1Cands (sol : Solution) : List (Machine × Operation × Operation) :=
  sol.inst.machines.flatMap (fun m =>
    (pairsOf (sortOps m.scheduled_operations)).map (fun p => (m, p.1, p.2)))

/-- The `i1`/`i2` scan of `_swap_and_repair`: enumerate a list and remember the
last index matching `op1` (`if` branch) resp. `op2` (`elif` branch), `-1` when
never matched. -/
def i1i2Scan (l : List Operation) (op1 op2 : Operation) : Int × Int :=
  let r := l.foldl (fun (acc : Int × Int × Int) x =>
    if x.operation_id == op1.operation_id && x.job_id == op1.job_id then
      (acc.1 + 1, acc.1, acc.2.2)
    else if x.operation_id == op2.operation_id && x.job_id == op2.job_id then
      (acc.1 + 1, acc.2.1, acc.1)
    else (acc.1 + 1, acc.2.1, acc.2.2)) (0, -1, -1)
  (r.2.1, r.2.2)

/-- `MyNeighborhood1._swap_and_repair(sol, machine, op1, op2)` acting on the
candidate copy `sol`.  The source resets the machine's operations and the
machine itself, then scans `machine.scheduled_operations` — which the reset
just emptied — for the indices of `op1`/`op2`; both stay `-1`, so the method
returns `False` before rebuilding anything.  (The rebuild branch is embedded
for totality; had it been reached, each `sol.schedule` call would raise
`AttributeError 'active'`, which the surrounding `except` turns into `False`
as well.) -/
def MyNeighborhood1.swap_and_repair (sol : Solution) (m : Machine)
    (op1 op2 : Operation) : Bool × Solution :=
  let scheduled_ops := sortOps m.scheduled_operations
  let sol1 := scheduled_ops.foldl
    (fun s o => updateOpIn s o.job_id o.operation_id (Operation.reset o)) sol
  let sol2 := updateMachineIn sol1 m.machine_id (Machine.reset m)
  let r := i1i2Scan (Machine.reset m).scheduled_operations op1 op2
  if r.1 == -1 || r.2 == -1 then (false, sol2)
  else
    match Solution.schedule sol2 op1 (Machine.reset m) with
    | .ok s => (s.is_feasible, s)
    | .error _ => (false, sol2)

/-- One candidate step of `MyNeighborhood1.best_neighbor`.  The accumulator is
`(live graph, best_sol, best_eval)`.  The body deep-copies the live graph,
locates the machine and the two operations in the copy (`next(...)` raises
`StopIteration` when a generator is exhausted), runs the swap-and-repair on
the copy, and keeps the candidate only if the repair succeeded, the candidate
is feasible and its evaluation strictly improves on `best_eval`. -/
def n1BestBody (acc : Solution × Solution × Rat)
    (c : Machine × Operation × Operation) :
    Except PyErr (Solution × Solution × Rat) := do
  let live := acc.1
  let new_sol := live
  let new_machine ← new_sol.get_machine c.1.machine_id
  let new_ops := sortOps new_machine.scheduled_operations
  let some op1 := new_ops.find? (fun o =>
      o.operation_id == c.2.1.operation_id && o.job_id == c.2.1.job_id)
    | throw .stopIteration
  let some op2 := new_ops.find? (fun o =>
      o.operation_id == c.2.2.operation_id && o.job_id == c.2.2.job_id)
    | throw .stopIteration
  let r := MyNeighborhood1.swap_and_repair new_sol new_machine op1 op2
  if r.1 then
    if r.2.is_feasible then do
      let e ← r.2.evaluate
      if e < acc.2.2 then return (live, r.2, e) else return acc
    else return acc
  else return acc

/-- `MyNeighborhood1.best_neighbor(sol)`: evaluates `sol` up front (raising
`ValueError` on an infeasible input), then folds over the candidates. -/
def MyNeighborhood1.best_neighbor_run (sol : Solution) : Except PyErr Solution := do
  let e0 ← sol.evaluate
  let r ← (n1Cands sol).foldlM n1BestBody (sol, sol, e0)
  return r.2.1

/-- The scan of `MyNeighborhood1.first_better_neighbor`: returns the first
accepted candidate (if any) together with the live graph. -/
def n1FirstLoop (orig live : Solution) :
    List (Machine × Operation × Operation) →
    Except PyErr (Option Solution × Solution)
  | [] => .ok (none, live)
  | c :: rest => do
    let new_sol := live
    let new_machine ← new_sol.get_machine c.1.machine_id
    let new_ops := sortOps new_machine.scheduled_operations
    let some op1 := new_ops.find? (fun o =>
        o.operation_id == c.2.1.operation_id && o.job_id == c.2.1.job_id)
      | throw .stopIteration
    let some op2 := new_ops.find? (fun o =>
        o.operation_id == c.2.2.operation_id && o.job_id == c.2.2.job_id)
      | throw .stopIteration
    let r := MyNeighborhood1.swap_and_repair new_sol new_machine op1 op2
    if r.1 then
      if r.2.is_feasible then do
        let e1 ← r.2.evaluate
        let e0 ← orig.evaluate
        if e1 < e0 then return (some r.2, live) else n1FirstLoop orig live rest
      else n1FirstLoop orig live rest
    else n1FirstLoop orig live rest

/-- `MyNeighborhood1.first_better_neighbor(sol)`. -/
def MyNeighborhood1.first_better_neighbor_run (sol : Solution) :
    Except PyErr Solution := do
  let r ← n1FirstLoop sol sol (n1Cands sol)
  match r.1 with
  | some c => return c
  | none => return sol

/-- The `(src_machine, op, tgt_machine)` triples visited by the loops of
`MyNeighborhood2`, skipping `tgt.machine_id == src.machine_id`
(the `continue`). -/
def n2Triples (sol : Solution) : List (Machine × Operation × Machine) :=
  sol.inst.machines.flatMap (fun src =>
    src.scheduled_operations.flatMap (fun op =>
      (sol.inst.machines.filter (fun t => t.machine_id ≠ src.machine_id)).map
        (fun t => (src, op, t))))

/-- `MyNeighborhood2.best_neighbor(sol)`: evaluates `sol`, then, on the first
visited `(src, op, tgt)` triple, evaluates `new_sol.instance` — but `Solution`
defines no attribute named `instance` (the property is `inst`), so the lookup
raises `AttributeError` before any candidate is built. -/
def MyNeighborhood2.best_neighbor_run (sol : Solution) : Except PyErr Solution := do
  let _ ← sol.evaluate
  match n2Triples sol with
  | [] => return sol
  | _ :: _ => throw (.attributeError "instance")

/-- `MyNeighborhood2._try_move_and_repair(sol, op, src, tgt)`: the first
statement of its `try` block is `sol.unschedule(op)`, but `Solution` defines
no method `unschedule`, so an `AttributeError` is raised at once, caught by
the `except`, and the method returns `False` with the copy unchanged. -/
def MyNeighborhood2.try_move_and_repair (s : Solution) (_op : Operation)
    (_src _tgt : Machine) : Bool × Solution :=
  (false, s)

/-- `str(sol)` (used by the `print` calls of the search code): both branches of
`Solution.__str__` interpolate `self.cmax`, so on an instance with no jobs the
`max()` call raises `ValueError`; otherwise the call is harmless. -/
def strOf (sol : Solution) : Except PyErr Unit := do
  let _ ← sol.cmax
  return ()

/-- The scan of `MyNeighborhood2.first_better_neighbor`. -/
def n2FirstLoop (orig live : Solution) :
    List (Machine × Operation × Machine) →
    Except PyErr (Option Solution × Solution)
  | [] => .ok (none, live)
  | c :: rest => do
    let new_sol := live
    let new_src ← new_sol.get_machine c.1.machine_id
    let _new_tgt ← new_sol.get_machine c.2.2.machine_id
    match new_src.scheduled_operations.find? (fun o =>
        o.operation_id == c.2.1.operation_id) with
    | none => n2FirstLoop orig live rest
    | some new_op =>
      let r := MyNeighborhood2.try_move_and_repair new_sol new_op new_src c.2.2
      if r.1 then
        if r.2.is_feasible then do
          let e1 ← r.2.evaluate
          let e0 ← orig.evaluate
          if e1 ≤ e0 then return (some r.2, live) else n2FirstLoop orig live rest
        else n2FirstLoop orig live rest
      else n2FirstLoop orig live rest

/-- `MyNeighborhood2.first_better_neighbor(sol)`: prints `str(sol)` on entry
and before the final return, scans the triples (every repair fails), and
returns `sol`. -/
def MyNeighborhood2.first_better_neighbor_run (sol : Solution) :
    Except PyErr Solution := do
  let _ ← strOf sol
  let r ← n2FirstLoop sol sol (n2Triples sol)
  match r.1 with
  | some c => return c
  | none => do
    let _ ← strOf sol
    return sol

/-! ### Local search drivers from `optim/local_search.py` -/

/-- One iteration of the `while improved` loop shared by
`FirstNeighborLocalSearch.run` and `BestNeighborLocalSearch.run`:
ask the neighborhood for a candidate, compare evaluations, and either accept
(strict improvement) or mark convergence.  Returns `(solution, converged)`. -/
def lsStep (neighbor : Solution → Except PyErr Solution) (cur : Solution) :
    Except PyErr (Solution × Bool) := do
  let ns ← neighbor cur
  let e1 ← ns.evaluate
  let e0 ← cur.evaluate
  if e0 ≤ e1 then return (cur, true) else return (ns, false)

/-- `n` iterations of the driver loop, stopping early once converged. -/
def lsIter (neighbor : Solution → Except PyErr Solution) :
    Nat → Solution → Except PyErr (Solution × Bool)
  | 0, cur => .ok (cur, false)
  | n + 1, cur => do
    let p ← lsIter neighbor n cur
    if p.2 then return p else lsStep neighbor p.1

/-! ### CSV persistence from `solution.py` (`to_csv` / `from_csv`)

The files are modelled by their parsed row lists. -/

/-- One row of the operation file: `operation_id,machine_id,start_time`. -/
structure OpRow where
  operation_id : Int
  machine_id : Int
  start_time : Int
deriving DecidableEq, Repr

/-- One row of the machine file: `machine_id,start_time,stop_time`. -/
structure MachRow where
  machine_id : Int
  start_time : Int
  stop_time : Int
deriving DecidableEq, Repr

/-- `to_csv`, operation file: one row per assigned operation, in
`instance.operations` order. -/
def Solution.to_csv_op_rows (sol : Solution) : List OpRow :=
  (sol.all_operations.filter Operation.assigned).map
    (fun op => ⟨op.operation_id, op.assigned_to, op.start_time⟩)

/-- The machine-file rows contributed by one machine:
`zip(machine.start_times, machine.stop_times)` over the sorted properties. -/
def Machine.csv_rows (m : Machine) : List MachRow :=
  (m.start_times.zip m.stop_times).map (fun p => ⟨m.machine_id, p.1, p.2⟩)

/-- `to_csv`, machine file. -/
def Solution.to_csv_mach_rows (sol : Solution) : List MachRow :=
  (sol.inst.machines.map Machine.csv_rows).flatten

/-- One operation row of `from_csv`: find the **first** operation whose
`operation_id` matches (the lookup ignores `job_id`), and replay
`operation.schedule(machine_id, start_time, check_success=False)` on it;
rows with no match are skipped (`if operation:`). -/
def applyOpRow (sol : Solution) (row : OpRow) : Solution :=
  match sol.all_operations.find? (fun op => op.operation_id == row.operation_id) with
  | none => sol
  | some op =>
    let r := op.schedule row.machine_id row.start_time false
    updateOpIn sol op.job_id op.operation_id r.2

/-- One machine row of `from_csv`: `instance.get_machine(machine_id)`
(a `KeyError` when the id is unknown), then append the start and stop events
directly to the machine's private event lists. -/
def applyMachRow (sol : Solution) (row : MachRow) : Except PyErr Solution := do
  let _ ← sol.get_machine row.machine_id
  return { sol with inst :=
    { sol.inst with machines := sol.inst.machines.map (fun m =>
        if m.machine_id = row.machine_id then
          { m with start_times_raw := m.start_times_raw ++ [row.start_time],
                   stop_times_raw := m.stop_times_raw ++ [row.stop_time] }
        else m) } }

/-- `from_csv`: replay the operation rows, then the machine rows. -/
def Solution.from_csv (sol : Solution) (opRows : List OpRow)
    (machRows : List MachRow) : Except PyErr Solution :=
  machRows.foldlM applyMachRow (opRows.foldl applyOpRow sol)

/-- The observable signature of an operation for the round-trip claim:
`(operation_id, assigned machine, start time)`. -/
def opSig (op : Operation) : Int × Int × Int :=
  (op.operation_id, op.assigned_to, op.start_time)

/-- The observable signature of a machine for the round-trip claim: its id and
its `(start_time, stop_time)` pairs as exposed by the sorted properties. -/
def machSig (m : Machine) : Int × List (Int × Int) :=
  (m.machine_id, m.start_times.zip m.stop_times)

/-! ### Specification-side definitions (comparison targets)

The following definitions are written from the specification's wording, not
from the source, and serve only as the second side of refinement
comparisons. -/

/-- Two operations do not overlap in time. -/
def opsDisjoint (a b : Operation) : Bool :=
  decide (a.end_time ≤ b.start_time) || decide (b.end_time ≤ a.start_time)

/-- No two operations of the list overlap pairwise. -/
def noOverlap : List Operation → Bool
  | [] => true
  | o :: rest => rest.all (opsDisjoint o) && noOverlap rest

/-- The operation's `[start, end)` lies within one active (post-setup,
pre-teardown) window of the machine. -/
def inWindow (m : Machine) (op : Operation) : Bool :=
  (m.start_times.zip m.stop_times).any (fun p =>
    decide (p.1 + m.set_up_time ≤ op.start_time) && decide (op.end_time ≤ p.2))

/-- The feasibility predicate as the specification words it: the conjunction of
the six checks `(1)` every operation assigned, `(2)` each assigned machine
admissible, `(3)` precedence respected with every predecessor assigned,
`(4)` no overlap on a machine, `(5)` operations inside an active window of
their machine, `(6)` stop events at or before the horizon `end_time`. -/
def feasibleSpec (sol : Solution) : Bool :=
  sol.all_operations.all Operation.assigned &&
  sol.all_operations.all (fun op =>
    !op.assigned || (optionsLookup op.machine_options op.assigned_to).isSome) &&
  sol.all_operations.all (fun op =>
    op.predecessors.all (fun p =>
      infoAssigned p && decide (infoEnd p ≤ op.start_time))) &&
  sol.inst.machines.all (fun m => noOverlap m.scheduled_operations) &&
  sol.inst.machines.all (fun m => m.scheduled_operations.all (inWindow m)) &&
  sol.inst.machines.all (fun m =>
    m.stop_times_raw.all (fun t => decide (t ≤ m.end_time)))

/-- The machine event-list invariant from the specification:
`len(start_times) - len(stop_times) ∈ {0, 1}`. -/
def lenInv (m : Machine) : Prop :=
  m.start_times_raw.length = m.stop_times_raw.length ∨
    m.start_times_raw.length = m.stop_times_raw.length + 1

/-- The machine is currently running: one more recorded start than stops. -/
def runningB (m : Machine) : Bool :=
  m.start_times_raw.length == m.stop_times_raw.length + 1

/-- Setups as the spec counts them: the recorded start events. -/
def setupsCount (m : Machine) : Nat := m.start_times_raw.length

/-- Teardowns as the energy/working-time accounting counts them: the recorded
stop events, plus the implicit stop at `end_time` of a still-running machine
(which enters the accounting only and is never a recorded event). -/
def teardownsAcc (m : Machine) : Nat :=
  m.stop_times_raw.length + (if runningB m then 1 else 0)

/-- Working time as the spec words it: the sum of each start/stop interval,
with an unterminated final run counted through to `end_time`. -/
def workingTimeSpec (m : Machine) : Int :=
  ((m.stop_times_raw.zip m.start_times_raw).map (fun p => p.1 - p.2)).sum +
    (if runningB m then m.end_time - m.start_times_raw.getLastD 0 else 0)

/-- Idle time as the spec words it. -/
def idleSpec (m : Machine) : Int :=
  workingTimeSpec m -
    (m.scheduled_operations.map Operation.processing_time).sum -
    (setupsCount m : Int) * m.set_up_time -
    (teardownsAcc m : Int) * m.tear_down_time

/-- Total machine energy as the spec words it:
`setups*setup_energy + teardowns*teardown_energy + sum of operation energies
+ idle_time*min_consumption`. -/
def energySpec (m : Machine) : Int :=
  (setupsCount m : Int) * m.set_up_energy +
    (teardownsAcc m : Int) * m.tear_down_energy +
    (m.scheduled_operations.map Operation.energy).sum +
    idleSpec m * m.min_consumption

/-! ## Claim C1 — `evaluate` on an infeasible solution -/

/-- An operation with one admissible machine, not yet assigned. -/
def opU : Operation :=
  { job_id := 0, operation_id := 0, predecessors := [],
    machine_options := [(0, 3, 2)], schedule_info := none }

/-- A solution whose single operation is unassigned: infeasible. -/
def solC1 : Solution :=
  { inst := { machines := [], jobs := [{ job_id := 0, operations := [opU] }],
              operations := [opU] },
    alpha := 1/2, beta := 1/2 }

/-- C1: the claim says `evaluate` returns `+∞` on an infeasible solution and
never raises; the code computes `int('inf')`, which raises `ValueError` in
Python, so `evaluate` raises on every infeasible solution. -/
theorem c1_evaluate_raises_on_infeasible :
    Solution.is_feasible solC1 = false ∧
    Solution.evaluate solC1 = Except.error PyErr.valueError :=
  ⟨rfl, rfl⟩

/-! ## Claim C2 — `is_feasible` performs only the assignment check -/

/-- C2 (amended): `is_feasible` is true iff every operation is assigned —
only check (1) of the specification's list is implemented. -/
theorem c2_is_feasible_is_assignment_check (sol : Solution) :
    Solution.is_feasible sol = true ↔
      ∀ op ∈ sol.all_operations, op.assigned = true := by
  simp [Solution.is_feasible, List.all_eq_true]

/-- Schedule info of the first overlapping operation. -/
def infoA : OperationScheduleInfo := ⟨0, 0, 5, 1⟩

/-- Schedule info of the second overlapping operation (same interval). -/
def infoB : OperationScheduleInfo := ⟨0, 0, 5, 1⟩

/-- First operation, assigned to machine 0 on `[0, 5)`. -/
def opA : Operation :=
  { job_id := 0, operation_id := 0, predecessors := [],
    machine_options := [(0, 5, 1)], schedule_info := some infoA }

/-- Second operation, also assigned to machine 0 on `[0, 5)`. -/
def opB : Operation :=
  { job_id := 0, operation_id := 1, predecessors := [],
    machine_options := [(0, 5, 1)], schedule_info := some infoB }

/-- Machine 0 with the two overlapping operations scheduled. -/
def mC2 : Machine :=
  { machine_id := 0, set_up_time := 0, set_up_energy := 0, tear_down_time := 0,
    tear_down_energy := 0, min_consumption := 0, end_time := 100,
    scheduled_operations := [opA, opB], start_times_raw := [0],
    stop_times_raw := [50], available_time := 5 }

/-- A fully assigned solution whose two operations overlap on machine 0. -/
def solC2 : Solution :=
  { inst := { machines := [mC2], jobs := [{ job_id := 0, operations := [opA, opB] }],
              operations := [opA, opB] },
    alpha := 1/2, beta := 1/2 }

/-- C2 counterexample: a solution with two overlapping operations on the same
machine — every operation is assigned, so `is_feasible` is true, yet the
six-check conjunction the claim describes is false (check (4) fails). -/
theorem c2_counterexample :
    Solution.is_feasible solC2 = true ∧ feasibleSpec solC2 = false := by
  constructor
  · rfl
  · decide

/-- Witness for C2 at `solC2`. -/
theorem c2_witness : Solution.is_feasible solC2 = true :=
  (c2_is_feasible_is_assignment_check solC2).mpr (by decide)

/-! ## Claim C4 — the `Operation.schedule` contract -/

/-- C4: `Operation.schedule` fails without side effect when the operation is
already assigned or the machine is not admissible, fails under
`check_success` when a predecessor is unassigned/late or `at_time` is below
`min_start_time`, and on success fixes duration and energy from the
admissible-machine table and the start time to `at_time`. -/
theorem c4_operation_schedule_contract (op : Operation) (mid t : Int) (cs : Bool) :
    ((op.assigned = true ∨ optionsLookup op.machine_options mid = none) →
      op.schedule mid t cs = (false, op)) ∧
    (cs = true → (op.is_ready t = false ∨ t < op.min_start_time) →
      op.schedule mid t cs = (false, op)) ∧
    (∀ d e, optionsLookup op.machine_options mid = some (d, e) →
      (op.schedule mid t cs).1 = true →
      (op.schedule mid t cs).2 = { op with schedule_info := some ⟨mid, t, d, e⟩ }) ∧
    ((op.schedule mid t cs).1 = true ↔
      (op.assigned = false ∧ (optionsLookup op.machine_options mid).isSome = true ∧
        (cs = true → (op.is_ready t = true ∧ op.min_start_time ≤ t)))) := by
  refine ⟨?_, ?_, ?_, ?_⟩
  · rintro (h | h)
    · simp [Operation.schedule, h]
    · simp [Operation.schedule, h]
  · rintro rfl h
    by_cases h1 : (op.assigned || (optionsLookup op.machine_options mid).isNone) = true
    · simp [Operation.schedule, h1]
    · rcases h with h | h
      · simp [Operation.schedule, h1, h]
      · simp [Operation.schedule, h1, h]
  · intro d e hde
    unfold Operation.schedule
    by_cases h1 : (op.assigned || (optionsLookup op.machine_options mid).isNone) = true
    · simp [h1]
    · have ha : op.assigned = false := by
        cases h : op.assigned
        · rfl
        · exact absurd (by simp [h]) h1
      by_cases h2 : (cs && (!op.is_ready t || decide (t < op.min_start_time))) = true
      · simp [h1, h2]
      · simp [h1, h2, hde, ha]
  · unfold Operation.schedule
    by_cases h1 : (op.assigned || (optionsLookup op.machine_options mid).isNone) = true
    · simp only [h1, if_true]
      simp only [Bool.or_eq_true, Option.isNone_iff_eq_none] at h1
      constructor
      · intro h; exact absurd h (by simp)
      · rintro ⟨ha, hs, _⟩
        rcases h1 with h1 | h1
        · exact absurd h1 (by simp [ha])
        · simp [h1] at hs
    · simp only [h1, if_false]
      simp only [Bool.or_eq_true, Option.isNone_iff_eq_none, not_or] at h1
      obtain ⟨ha, hs⟩ := h1
      by_cases h2 : (cs && (!op.is_ready t || decide (t < op.min_start_time))) = true
      · simp only [h2, if_true]
        constructor
        · intro h; exact absurd h (by simp)
        · rintro ⟨-, -, hc⟩
          simp only [Bool.and_eq_true, Bool.or_eq_true, Bool.not_eq_true',
            decide_eq_true_eq] at h2
          obtain ⟨hcs, hbad⟩ := h2
          obtain ⟨hr, hm⟩ := hc hcs
          rcases hbad with hbad | hbad
          · exact absurd hr (by simp [hbad])
          · omega
      · simp only [h2, if_false]
        rcases hde : optionsLookup op.machine_options mid with _ | ⟨d, e⟩
        · exact absurd hde hs
        · simp only [hde]
          constructor
          · intro _
            refine ⟨by simpa using ha, by simp [hde], ?_⟩
            intro hcs
            subst hcs
            simp only [Bool.true_and, Bool.or_eq_true, Bool.not_eq_true',
              decide_eq_true_eq] at h2
            push_neg at h2
            refine ⟨?_, by omega⟩
            cases hr : op.is_ready t
            · exact absurd hr h2.1
            · rfl
          · intro _; rfl

/-- Operation used by the C4 witness: unassigned, one admissible machine, one
assigned predecessor ending at time 4. -/
def opW4 : Operation :=
  { job_id := 0, operation_id := 0, predecessors := [some ⟨0, 0, 4, 1⟩],
    machine_options := [(0, 3, 2)], schedule_info := none }

/-- Witness for C4 at a concrete operation: machine 7 is not admissible (branch
one); at time 2 the predecessor (ending at 4) is not finished (branch two);
at time 5 scheduling succeeds and fixes the info from the table. -/
theorem c4_witness :
    Operation.schedule opW4 7 5 true = (false, opW4) ∧
    Operation.schedule opW4 0 2 true = (false, opW4) ∧
    (Operation.schedule opW4 0 5 true).1 = true ∧
    (Operation.schedule opW4 0 5 true).2 =
      { opW4 with schedule_info := some ⟨0, 5, 3, 2⟩ } := by
  refine ⟨(c4_operation_schedule_contract opW4 7 5 true).1 (Or.inr (by decide)),
    (c4_operation_schedule_contract opW4 0 2 true).2.1 rfl (Or.inl (by decide)),
    ?_, ?_⟩
  · exact ((c4_operation_schedule_contract opW4 0 5 true).2.2.2).2
      ⟨by decide, by decide, fun _ => ⟨by decide, by decide⟩⟩
  · exact (c4_operation_schedule_contract opW4 0 5 true).2.2.1 3 2 (by decide)
      (((c4_operation_schedule_contract opW4 0 5 true).2.2.2).2
        ⟨by decide, by decide, fun _ => ⟨by decide, by decide⟩⟩)

/-! ## Claim C7 — machine event-list invariant and `available_time` -/

/-- C7 (amended): every legal `start`/`stop` call preserves the interleaving
invariant (`start` requires equal lengths and yields difference 1, `stop`
requires difference 1 and restores equality) and, when the setup/teardown
durations are nonnegative, never decreases `available_time`; `add_operation`
leaves the event lists unchanged (hence preserves the invariant) but may move
`available_time` to the new operation's end time, which can lie before the
old cursor. -/
theorem c7_machine_invariant (m : Machine) (t : Int) :
    (∀ m', m.start t = .ok m' →
      m'.start_times_raw.length = m'.stop_times_raw.length + 1 ∧
        (0 ≤ m.set_up_time → m.available_time ≤ m'.available_time)) ∧
    (∀ m', m.stop t = .ok m' →
      m'.start_times_raw.length = m'.stop_times_raw.length ∧
        (0 ≤ m.tear_down_time → m.available_time ≤ m'.available_time)) ∧
    (∀ op r, m.add_operation op t = .ok r →
      r.1.start_times_raw = m.start_times_raw ∧
        r.1.stop_times_raw = m.stop_times_raw) := by
  refine ⟨?_, ?_, ?_⟩
  · intro m' h
    unfold Machine.start at h
    split_ifs at h with h1 h2
    cases h
    simp only [List.length_append, List.length_cons, List.length_nil]
    push_neg at h1 h2
    constructor
    · omega
    · intro hsu; omega
  · intro m' h
    unfold Machine.stop at h
    split_ifs at h with h1 h2
    cases h
    simp only [List.length_append, List.length_cons, List.length_nil]
    push_neg at h1 h2
    constructor
    · omega
    · intro htd; omega
  · intro op r h
    simp only [Machine.add_operation] at h
    split_ifs at h with h1
    cases h
    exact ⟨rfl, rfl⟩

/-- A stopped machine with setup time 10 (C7 concrete input). -/
def m7 : Machine :=
  { machine_id := 0, set_up_time := 10, set_up_energy := 0, tear_down_time := 0,
    tear_down_energy := 0, min_consumption := 0, end_time := 100,
    scheduled_operations := [], start_times_raw := [], stop_times_raw := [],
    available_time := 0 }

/-- `m7` after `start(0)`: available at `0 + 10 = 10`. -/
def m7started : Machine := { m7 with start_times_raw := [0], available_time := 10 }

/-- An operation with no predecessor, duration 2 on machine 0. -/
def op7 : Operation :=
  { job_id := 0, operation_id := 0, predecessors := [],
    machine_options := [(0, 2, 1)], schedule_info := none }

/-- `op7` scheduled on machine 0 at time 0. -/
def op7after : Operation := { op7 with schedule_info := some ⟨0, 0, 2, 1⟩ }

/-- `m7started` after `add_operation(op7, 0)`: the cursor falls back to 2. -/
def m7after : Machine :=
  { m7started with scheduled_operations := [op7after], available_time := 2 }

/-- C7 counterexample: `start(0)` makes the machine available at 10, then the
legal call `add_operation(op7, 0)` (its only assertion — the scheduling
succeeded — holds) moves `available_time` back to 2, so the cursor is not
non-decreasing over legal call sequences. -/
theorem c7_counterexample :
    Machine.start m7 0 = .ok m7started ∧
    Machine.add_operation m7started op7 0 = .ok (m7after, op7after, 0) ∧
    m7after.available_time < m7started.available_time := by
  refine ⟨by decide, by decide, by decide⟩

/-- Witness for C7: the invariant and cursor facts at the concrete `start`
call on `m7`. -/
theorem c7_witness :
    m7started.start_times_raw.length = m7started.stop_times_raw.length + 1 ∧
      (0 ≤ m7.set_up_time → m7.available_time ≤ m7started.available_time) :=
  (c7_machine_invariant m7 0).1 m7started (by decide)

/-! ## Claim C3 — `Solution.schedule` and `Greedy.run` always raise -/

/-- C3: every `Solution.schedule` call fails (so no operation is ever
successfully scheduled through it); when the asserted precondition holds
(the operation is available) the failure is precisely the
`AttributeError` on `machine.active`, raised before any state is touched;
and `Greedy.run` hits the same `machine.active` lookup while costing its
first `(ready operation, admissible machine)` pair. -/
theorem c3_schedule_always_raises :
    (∀ (sol : Solution) (op : Operation) (m : Machine) (s' : Solution),
        Solution.schedule sol op m ≠ .ok s') ∧
    (∀ (sol : Solution) (op : Operation) (m : Machine),
        op ∈ sol.available_operations →
        Solution.schedule sol op m = .error (.attributeError "active")) ∧
    (∀ (inst : Instance) (mid : Int) (M : Machine),
        0 < inst.operations.length →
        firstOptionMachineId
          (Solution.init inst (1/2) (1/2)).available_operations = some mid →
        (Solution.init inst (1/2) (1/2)).get_machine mid = .ok M →
        Greedy.run inst = .error (.attributeError "active")) := by
  have hbind : ∀ (sol : Solution) (op : Operation) (m : Machine),
      (m.active >>= Solution.scheduleBody sol op m) =
        .error (.attributeError "active") := by
    intro sol op m
    rfl
  refine ⟨?_, ?_, ?_⟩
  · intro sol op m s'
    unfold Solution.schedule
    split_ifs with h
    · rw [hbind]; exact fun hc => by cases hc
    · exact fun hc => by cases hc
  · intro sol op m hmem
    unfold Solution.schedule
    rw [if_pos hmem]
    exact hbind sol op m
  · intro inst mid M hlen hfirst hget
    unfold Greedy.run
    rw [if_neg (by omega)]
    cases havail : (Solution.init inst (1/2) (1/2)).available_operations with
    | nil => rw [havail] at hfirst; cases hfirst
    | cons a l =>
      rw [havail] at hfirst
      simp only [hfirst, hget]

/-- Operation for the C3 witness: unassigned, admissible on machine 0. -/
def opW3 : Operation :=
  { job_id := 0, operation_id := 0, predecessors := [],
    machine_options := [(0, 5, 3)], schedule_info := none }

/-- Machine for the C3 witness: fresh (reset state). -/
def mW3 : Machine :=
  { machine_id := 0, set_up_time := 1, set_up_energy := 1, tear_down_time := 1,
    tear_down_energy := 1, min_consumption := 1, end_time := 100,
    scheduled_operations := [], start_times_raw := [], stop_times_raw := [],
    available_time := 0 }

/-- One-operation, one-machine instance for the C3 witness. -/
def instW3 : Instance :=
  { machines := [mW3], jobs := [{ job_id := 0, operations := [opW3] }],
    operations := [opW3] }

/-- Solution for the C3 witness: `opW3` is available. -/
def solW3 : Solution := { inst := instW3, alpha := 1/2, beta := 1/2 }

/-- Witness for C3: at the concrete instance, `Solution.schedule` raises the
`AttributeError` on `machine.active`, and so does `Greedy.run`. -/
theorem c3_witness :
    Solution.schedule solW3 opW3 mW3 = .error (.attributeError "active") ∧
    Greedy.run instW3 = .error (.attributeError "active") :=
  ⟨c3_schedule_always_raises.2.1 solW3 opW3 mW3 (by decide),
   c3_schedule_always_raises.2.2 instW3 0 mW3 (by decide) (by decide) (by decide)⟩

/-! ## Claim C8 — the machine energy accounting formula -/

/-- C8: under the event-list invariant and with every scheduled operation
assigned, `total_energy_consumption` equals the specification's formula, with
setups counting the recorded start events and teardowns counting the recorded
stop events plus the implicit stop at `end_time` of a still-running machine
(which enters the accounting only, never the event list). -/
theorem c8_energy_formula (m : Machine) (hinv : lenInv m)
    (hops : ∀ op ∈ m.scheduled_operations, op.assigned = true) :
    m.total_energy_consumption = energySpec m := by
  have hstart : m.start_times.length = setupsCount m := by
    unfold Machine.start_times setupsCount sortedInt
    exact List.length_insertionSort _ _
  have hproc : (m.scheduled_operations.map (fun op => op.end_time - op.start_time)).sum
      = (m.scheduled_operations.map Operation.processing_time).sum := by
    apply congrArg
    apply List.map_congr_left
    intro op hop
    have ha := hops op hop
    simp only [Operation.end_time, ha, if_true]
    omega
  rcases hinv with h | h
  · have hrun : runningB m = false := by
      unfold runningB
      exact beq_eq_false_iff_ne.mpr (by omega)
    have hstop : m.stop_times.length = teardownsAcc m := by
      unfold Machine.stop_times teardownsAcc sortedInt
      rw [if_neg (by omega), hrun, List.length_insertionSort]
      simp
    have hwork : m.working_time = workingTimeSpec m := by
      unfold Machine.working_time workingTimeSpec
      rw [hrun, if_neg (by omega)]
      simp
    simp only [Machine.total_energy_consumption, energySpec, idleSpec]
    rw [hstart, hstop, hwork, hproc]
  · have hrun : runningB m = true := by
      unfold runningB
      exact beq_iff_eq.mpr h
    have hstop : m.stop_times.length = teardownsAcc m := by
      unfold Machine.stop_times teardownsAcc sortedInt
      rw [if_pos (by omega), hrun, List.length_insertionSort]
      simp
    have hwork : m.working_time = workingTimeSpec m := by
      unfold Machine.working_time workingTimeSpec
      rw [hrun, if_pos h]
      simp
    simp only [Machine.total_energy_consumption, energySpec, idleSpec]
    rw [hstart, hstop, hwork, hproc]

/-- Machine for the C8 witness: started at 0 and still running at the horizon,
with one assigned operation on `[10, 20)`. -/
def mW8 : Machine :=
  { machine_id := 0, set_up_time := 2, set_up_energy := 3, tear_down_time := 1,
    tear_down_energy := 4, min_consumption := 1, end_time := 100,
    scheduled_operations :=
      [{ job_id := 0, operation_id := 0, predecessors := [],
         machine_options := [(0, 10, 5)], schedule_info := some ⟨0, 10, 10, 5⟩ }],
    start_times_raw := [0], stop_times_raw := [], available_time := 20 }

/-- Witness for C8 at a concrete still-running machine. -/
theorem c8_witness :
    Machine.total_energy_consumption mW8 = energySpec mW8 :=
  c8_energy_formula mW8 (Or.inr rfl) (by decide)

/-! ## Helper lemmas for the neighborhood operators -/

theorem exceptBind_ok {α β : Type} (a : α) (f : α → Except PyErr β) :
    (Except.ok a >>= f) = f a := rfl

theorem exceptBind_error {α β : Type} (e : PyErr) (f : α → Except PyErr β) :
    ((Except.error e : Except PyErr α) >>= f) = Except.error e := rfl

/-- `_swap_and_repair` always returns `False`: after `machine.reset()` the
index scan runs over an empty list, so `i1 = i2 = -1`. -/
theorem swap_and_repair_fst_false (sol : Solution) (m : Machine)
    (op1 op2 : Operation) :
    (MyNeighborhood1.swap_and_repair sol m op1 op2).1 = false := rfl

/-- Components of a `pairsOf` element belong to the list. -/
theorem pairsOf_mem {α : Type} :
    ∀ {l : List α} {p : α × α}, p ∈ pairsOf l → p.1 ∈ l ∧ p.2 ∈ l := by
  intro l
  induction l with
  | nil => intro p h; cases h
  | cons x xs ih =>
    intro p h
    simp only [pairsOf, List.mem_append, List.mem_map] at h
    rcases h with ⟨y, hy, rfl⟩ | h
    · exact ⟨List.mem_cons_self x xs, List.mem_cons_of_mem x hy⟩
    · obtain ⟨h1, h2⟩ := ih h
      exact ⟨List.mem_cons_of_mem x h1, List.mem_cons_of_mem x h2⟩

/-- With pairwise-distinct machine ids, the dict lookup by a member's id
returns that member. -/
theorem find_machine_self :
    ∀ {l : List Machine} {m : Machine}, m ∈ l →
      l.Pairwise (fun a b => a.machine_id ≠ b.machine_id) →
      l.find? (fun x => x.machine_id == m.machine_id) = some m := by
  intro l
  induction l with
  | nil => intro m h; cases h
  | cons a l ih =>
    intro m hmem hd
    rcases List.mem_cons.mp hmem with rfl | hmem'
    · exact List.find?_cons_of_pos l (by simp)
    · have hne : a.machine_id ≠ m.machine_id :=
        (List.pairwise_cons.mp hd).1 m hmem'
      rw [List.find?_cons_of_neg l (by simp [hne])]
      exact ih hmem' (List.pairwise_cons.mp hd).2

/-- Membership facts for a `MyNeighborhood1` candidate. -/
theorem n1Cands_mem {sol : Solution} {c : Machine × Operation × Operation}
    (hc : c ∈ n1Cands sol) :
    c.1 ∈ sol.inst.machines ∧
      c.2.1 ∈ sortOps c.1.scheduled_operations ∧
      c.2.2 ∈ sortOps c.1.scheduled_operations := by
  unfold n1Cands at hc
  rw [List.mem_flatMap] at hc
  obtain ⟨m, hm, hmap⟩ := hc
  rw [List.mem_map] at hmap
  obtain ⟨p, hp, rfl⟩ := hmap
  obtain ⟨h1, h2⟩ := pairsOf_mem hp
  exact ⟨hm, h1, h2⟩

/-- A machine that belongs to the solution is found by `get_machine`. -/
theorem get_machine_of_mem {sol : Solution} {m : Machine}
    (hm : m ∈ sol.inst.machines) :
    ∃ m', sol.get_machine m.machine_id = .ok m' := by
  have hs : (sol.inst.machines.find? (fun x => x.machine_id == m.machine_id)).isSome :=
    List.find?_isSome.mpr ⟨m, hm, by simp⟩
  unfold Solution.get_machine
  cases hf : sol.inst.machines.find? (fun x => x.machine_id == m.machine_id) with
  | none => rw [hf] at hs; cases hs
  | some m' => exact ⟨m', rfl⟩

/-- With distinct machine ids, `get_machine` returns the member itself. -/
theorem get_machine_self {sol : Solution} {m : Machine}
    (hm : m ∈ sol.inst.machines)
    (hd : sol.inst.machines.Pairwise (fun a b => a.machine_id ≠ b.machine_id)) :
    sol.get_machine m.machine_id = .ok m := by
  unfold Solution.get_machine
  rw [find_machine_self hm hd]

/-- An operation present in a list is found by the `(operation_id, job_id)`
scan of `MyNeighborhood1`. -/
theorem find_op_of_mem {l : List Operation} {o : Operation} (ho : o ∈ l) :
    ∃ o', l.find? (fun x =>
      x.operation_id == o.operation_id && x.job_id == o.job_id) = some o' := by
  have hs : (l.find? (fun x =>
      x.operation_id == o.operation_id && x.job_id == o.job_id)).isSome :=
    List.find?_isSome.mpr ⟨o, ho, by simp⟩
  cases hf : l.find? (fun x =>
      x.operation_id == o.operation_id && x.job_id == o.job_id) with
  | none => rw [hf] at hs; cases hs
  | some o' => exact ⟨o', rfl⟩

/-- Every candidate step of `MyNeighborhood1.best_neighbor` leaves the
accumulator unchanged: the repair always fails. -/
theorem n1BestBody_skip {sol bs : Solution} {e : Rat}
    {c : Machine × Operation × Operation}
    (hd : sol.inst.machines.Pairwise (fun a b => a.machine_id ≠ b.machine_id))
    (hc : c ∈ n1Cands sol) :
    n1BestBody (sol, bs, e) c = .ok (sol, bs, e) := by
  obtain ⟨hm, h1, h2⟩ := n1Cands_mem hc
  obtain ⟨o1, ho1⟩ := find_op_of_mem h1
  obtain ⟨o2, ho2⟩ := find_op_of_mem h2
  unfold n1BestBody
  dsimp only
  rw [get_machine_self hm hd, exceptBind_ok]
  simp only [ho1, ho2, swap_and_repair_fst_false, Bool.false_eq_true, if_false]
  rfl

/-- The fold of a body that never changes the accumulator. -/
theorem foldlM_skip {α β : Type} (f : β → α → Except PyErr β) (b : β) :
    ∀ l : List α, (∀ a ∈ l, f b a = .ok b) → l.foldlM f b = .ok b := by
  intro l
  induction l with
  | nil => intro _; rfl
  | cons x xs ih =>
    intro h
    rw [List.foldlM_cons, h x (List.mem_cons_self x xs), exceptBind_ok]
    exact ih (fun a ha => h a (List.mem_cons_of_mem x ha))

/-- `MyNeighborhood1.best_neighbor` returns the input solution whenever the
input evaluates (every swap candidate's repair fails). -/
theorem n1_best_eq {sol : Solution} {e : Rat}
    (hd : sol.inst.machines.Pairwise (fun a b => a.machine_id ≠ b.machine_id))
    (he : sol.evaluate = .ok e) :
    MyNeighborhood1.best_neighbor_run sol = .ok sol := by
  unfold MyNeighborhood1.best_neighbor_run
  rw [he, exceptBind_ok,
    foldlM_skip _ _ _ (fun c hc => n1BestBody_skip hd hc), exceptBind_ok]
  rfl

/-- The scan of `MyNeighborhood1.first_better_neighbor` never accepts a
candidate and preserves the live graph. -/
theorem n1FirstLoop_none (orig sol : Solution)
    (hd : sol.inst.machines.Pairwise (fun a b => a.machine_id ≠ b.machine_id)) :
    ∀ l : List (Machine × Operation × Operation),
      (∀ c ∈ l, c ∈ n1Cands sol) →
      n1FirstLoop orig sol l = .ok (none, sol) := by
  intro l
  induction l with
  | nil => intro _; rfl
  | cons c rest ih =>
    intro h
    obtain ⟨hm, h1, h2⟩ := n1Cands_mem (h c (List.mem_cons_self c rest))
    obtain ⟨o1, ho1⟩ := find_op_of_mem h1
    obtain ⟨o2, ho2⟩ := find_op_of_mem h2
    unfold n1FirstLoop
    dsimp only
    rw [get_machine_self hm hd, exceptBind_ok]
    simp only [ho1, ho2, swap_and_repair_fst_false, Bool.false_eq_true, if_false]
    exact ih (fun c' hc' => h c' (List.mem_cons_of_mem c hc'))

/-- `MyNeighborhood1.first_better_neighbor` returns the input solution. -/
theorem n1_first_eq {sol : Solution}
    (hd : sol.inst.machines.Pairwise (fun a b => a.machine_id ≠ b.machine_id)) :
    MyNeighborhood1.first_better_neighbor_run sol = .ok sol := by
  unfold MyNeighborhood1.first_better_neighbor_run
  rw [n1FirstLoop_none sol sol hd (n1Cands sol) (fun c hc => hc), exceptBind_ok]
  rfl

/-- Membership facts for a `MyNeighborhood2` triple. -/
theorem n2Triples_mem {sol : Solution} {c : Machine × Operation × Machine}
    (hc : c ∈ n2Triples sol) :
    c.1 ∈ sol.inst.machines ∧ c.2.2 ∈ sol.inst.machines := by
  unfold n2Triples at hc
  rw [List.mem_flatMap] at hc
  obtain ⟨src, hsrc, hc⟩ := hc
  rw [List.mem_flatMap] at hc
  obtain ⟨op, _, hc⟩ := hc
  rw [List.mem_map] at hc
  obtain ⟨t, ht, rfl⟩ := hc
  exact ⟨hsrc, (List.mem_filter.mp ht).1⟩

/-- The scan of `MyNeighborhood2.first_better_neighbor` never accepts a
candidate: every `_try_move_and_repair` call fails at once. -/
theorem n2FirstLoop_none (orig sol : Solution) :
    ∀ l : List (Machine × Operation × Machine),
      (∀ c ∈ l, c ∈ n2Triples sol) →
      n2FirstLoop orig sol l = .ok (none, sol) := by
  intro l
  induction l with
  | nil => intro _; rfl
  | cons c rest ih =>
    intro h
    obtain ⟨hsrc, htgt⟩ := n2Triples_mem (h c (List.mem_cons_self c rest))
    obtain ⟨msrc, hmsrc⟩ := get_machine_of_mem hsrc
    obtain ⟨mtgt, hmtgt⟩ := get_machine_of_mem htgt
    have ihrest := ih (fun c' hc' => h c' (List.mem_cons_of_mem c hc'))
    unfold n2FirstLoop
    dsimp only
    rw [hmsrc, exceptBind_ok, hmtgt, exceptBind_ok]
    cases hf : msrc.scheduled_operations.find? (fun o =>
        o.operation_id == c.2.1.operation_id) with
    | none => simpa [hf] using ihrest
    | some new_op =>
      simp only [hf, MyNeighborhood2.try_move_and_repair, Bool.false_eq_true,
        if_false]
      exact ihrest

/-- `evaluate` succeeds only when `cmax` does. -/
theorem evaluate_ok_cmax {sol : Solution} {e : Rat}
    (he : sol.evaluate = .ok e) : ∃ c, sol.cmax = .ok c := by
  unfold Solution.evaluate at he
  split_ifs at he with hf
  unfold Solution.objective at he
  cases hc : sol.cmax with
  | ok c => exact ⟨c, rfl⟩
  | error err => rw [hc] at he; cases he

/-- `MyNeighborhood2.first_better_neighbor` returns the input solution when
`str(sol)` does not raise (the instance has a job). -/
theorem n2_first_eq {sol : Solution} {cm : Int}
    (hc : sol.cmax = .ok cm) :
    MyNeighborhood2.first_better_neighbor_run sol = .ok sol := by
  unfold MyNeighborhood2.first_better_neighbor_run strOf
  rw [hc]
  simp only [exceptBind_ok]
  rw [n2FirstLoop_none sol sol (n2Triples sol) (fun c hcs => hcs), exceptBind_ok]
  rfl

/-- `MyNeighborhood2.best_neighbor` raises `AttributeError` exactly when the
triple scan is nonempty. -/
theorem n2_best_cases {sol : Solution} {e : Rat}
    (he : sol.evaluate = .ok e) :
    (n2Triples sol = [] → MyNeighborhood2.best_neighbor_run sol = .ok sol) ∧
    (n2Triples sol ≠ [] →
      MyNeighborhood2.best_neighbor_run sol = .error (.attributeError "instance")) := by
  unfold MyNeighborhood2.best_neighbor_run
  rw [he, exceptBind_ok]
  constructor
  · intro h; rw [h]; rfl
  · intro h
    cases ht : n2Triples sol with
    | nil => exact absurd ht h
    | cons a l => rfl

/-! ## Claim C5 — the neighborhood operator contract -/

/-- C5 (amended): on an input that evaluates (feasible, at least one job) over
machines with distinct ids, `MyNeighborhood1.best_neighbor`,
`MyNeighborhood1.first_better_neighbor` and
`MyNeighborhood2.first_better_neighbor` return the input solution unchanged —
every candidate repair fails, so no candidate is ever produced — while
`MyNeighborhood2.best_neighbor` returns the input only when its scan is empty
and otherwise raises `AttributeError` on the nonexistent `Solution.instance`
attribute. -/
theorem c5_neighborhood_contract (sol : Solution) (e : Rat)
    (hd : sol.inst.machines.Pairwise (fun a b => a.machine_id ≠ b.machine_id))
    (he : sol.evaluate = .ok e) :
    MyNeighborhood1.best_neighbor_run sol = .ok sol ∧
    MyNeighborhood1.first_better_neighbor_run sol = .ok sol ∧
    MyNeighborhood2.first_better_neighbor_run sol = .ok sol ∧
    (n2Triples sol = [] → MyNeighborhood2.best_neighbor_run sol = .ok sol) ∧
    (n2Triples sol ≠ [] →
      MyNeighborhood2.best_neighbor_run sol = .error (.attributeError "instance")) := by
  obtain ⟨cm, hcm⟩ := evaluate_ok_cmax he
  exact ⟨n1_best_eq hd he, n1_first_eq hd, n2_first_eq hcm,
    (n2_best_cases he).1, (n2_best_cases he).2⟩

/-- Operation for the C5/C10 concrete input: assigned on machine 0. -/
def opN2 : Operation :=
  { job_id := 0, operation_id := 0, predecessors := [],
    machine_options := [(0, 5, 1), (1, 5, 1)], schedule_info := some ⟨0, 0, 5, 1⟩ }

/-- Machine 0 with `opN2` scheduled (events and energies kept trivial). -/
def mN20 : Machine :=
  { machine_id := 0, set_up_time := 0, set_up_energy := 0, tear_down_time := 0,
    tear_down_energy := 0, min_consumption := 0, end_time := 100,
    scheduled_operations := [opN2], start_times_raw := [], stop_times_raw := [],
    available_time := 5 }

/-- A second, idle machine. -/
def mN21 : Machine :=
  { machine_id := 1, set_up_time := 0, set_up_energy := 0, tear_down_time := 0,
    tear_down_energy := 0, min_consumption := 0, end_time := 100,
    scheduled_operations := [], start_times_raw := [], stop_times_raw := [],
    available_time := 0 }

/-- A feasible two-machine solution with one scheduled operation. -/
def solN2 : Solution :=
  { inst := { machines := [mN20, mN21],
              jobs := [{ job_id := 0, operations := [opN2] }],
              operations := [opN2] },
    alpha := 1/2, beta := 1/2 }

/-- The concrete evaluation of `solN2`: feasible, energy 1, cmax 5, weights
one half each. -/
theorem solN2_evaluate : solN2.evaluate = .ok 3 := by
  have h2 : solN2.cmax = .ok 5 := rfl
  have h3 : solN2.total_energy_consumption = 1 := rfl
  unfold Solution.evaluate Solution.objective
  rw [if_pos (show solN2.is_feasible = true from rfl), h2, exceptBind_ok, h3]
  show Except.ok ((1/2 : Rat) * ((1 : Int) : Rat) + (1/2 : Rat) * ((5 : Int) : Rat)) =
    Except.ok 3
  norm_num

/-- C5 counterexample: on the feasible solution `solN2` (one operation
scheduled on machine 0, a second machine present),
`MyNeighborhood2.best_neighbor` raises `AttributeError` instead of returning
a neighbor or the solution itself — the claim says neither call raises. -/
theorem c5_counterexample :
    Solution.is_feasible solN2 = true ∧
    MyNeighborhood2.best_neighbor_run solN2 = .error (.attributeError "instance") :=
  ⟨rfl, rfl⟩

/-- Witness for C5 at `solN2`. -/
theorem c5_witness :
    MyNeighborhood1.best_neighbor_run solN2 = .ok solN2 ∧
    MyNeighborhood1.first_better_neighbor_run solN2 = .ok solN2 := by
  refine ⟨(c5_neighborhood_contract solN2 3 (by decide) solN2_evaluate).1,
    (c5_neighborhood_contract solN2 3 (by decide) solN2_evaluate).2.1⟩

/-! ## Claim C6 — candidate evaluation does not mutate the input graph -/

/-- C6: every candidate body operates on the deep copy and passes the live
input graph through unchanged: whatever a candidate step or scan returns, the
live component equals the input, so every `Operation.schedule_info` and every
machine's `scheduled_operations`, event lists and `available_time` of the
input solution's instance are exactly as before the call.
(`MyNeighborhood2.best_neighbor` raises before building any candidate, so
there is nothing to preserve on that path.) -/
theorem c6_candidates_preserve_live :
    (∀ (acc : Solution × Solution × Rat) (c : Machine × Operation × Operation)
        (acc' : Solution × Solution × Rat),
        n1BestBody acc c = .ok acc' → acc'.1 = acc.1) ∧
    (∀ (orig live : Solution) (l : List (Machine × Operation × Operation))
        (r : Option Solution × Solution),
        n1FirstLoop orig live l = .ok r → r.2 = live) ∧
    (∀ (orig live : Solution) (l : List (Machine × Operation × Machine))
        (r : Option Solution × Solution),
        n2FirstLoop orig live l = .ok r → r.2 = live) := by
  refine ⟨?_, ?_, ?_⟩
  · rintro ⟨live, bs, e⟩ c acc' h
    unfold n1BestBody at h
    dsimp only at h
    cases hg : live.get_machine c.1.machine_id with
    | error err => rw [hg, exceptBind_error] at h; cases h
    | ok nm =>
      rw [hg, exceptBind_ok] at h
      cases hf1 : (sortOps nm.scheduled_operations).find? (fun o =>
          o.operation_id == c.2.1.operation_id && o.job_id == c.2.1.job_id) with
      | none => rw [hf1] at h; cases h
      | some o1 =>
        cases hf2 : (sortOps nm.scheduled_operations).find? (fun o =>
            o.operation_id == c.2.2.operation_id && o.job_id == c.2.2.job_id) with
        | none => rw [hf1, hf2] at h; cases h
        | some o2 =>
          rw [hf1, hf2] at h
          simp only [swap_and_repair_fst_false, Bool.false_eq_true, if_false] at h
          cases h
          rfl
  · intro orig live l
    induction l with
    | nil =>
      intro r h
      cases h
      rfl
    | cons c rest ih =>
      intro r h
      unfold n1FirstLoop at h
      dsimp only at h
      cases hg : live.get_machine c.1.machine_id with
      | error err => rw [hg, exceptBind_error] at h; cases h
      | ok nm =>
        rw [hg, exceptBind_ok] at h
        cases hf1 : (sortOps nm.scheduled_operations).find? (fun o =>
            o.operation_id == c.2.1.operation_id && o.job_id == c.2.1.job_id) with
        | none => rw [hf1] at h; cases h
        | some o1 =>
          cases hf2 : (sortOps nm.scheduled_operations).find? (fun o =>
              o.operation_id == c.2.2.operation_id && o.job_id == c.2.2.job_id) with
          | none => rw [hf1, hf2] at h; cases h
          | some o2 =>
            rw [hf1, hf2] at h
            simp only [swap_and_repair_fst_false, Bool.false_eq_true, if_false] at h
            exact ih r h
  · intro orig live l
    induction l with
    | nil =>
      intro r h
      cases h
      rfl
    | cons c rest ih =>
      intro r h
      unfold n2FirstLoop at h
      dsimp only at h
      cases hg : live.get_machine c.1.machine_id with
      | error err => rw [hg, exceptBind_error] at h; cases h
      | ok nsrc =>
        rw [hg, exceptBind_ok] at h
        cases hg2 : live.get_machine c.2.2.machine_id with
        | error err => rw [hg2, exceptBind_error] at h; cases h
        | ok ntgt =>
          rw [hg2, exceptBind_ok] at h
          cases hf : nsrc.scheduled_operations.find? (fun o =>
              o.operation_id == c.2.1.operation_id) with
          | none => rw [hf] at h; exact ih r h
          | some new_op =>
            rw [hf] at h
            simp only [MyNeighborhood2.try_move_and_repair, Bool.false_eq_true,
              if_false] at h
            exact ih r h

/-- Witness for C6: the frame property applied to concrete candidate steps on
`solN2` and `solC2`. -/
theorem c6_witness :
    ((solN2, solN2, (3 : Rat)).1 = solN2) ∧
    ((none (α := Solution), solC2).2 = solC2) ∧
    ((none (α := Solution), solN2).2 = solN2) := by
  refine ⟨?_, ?_, ?_⟩
  · exact c6_candidates_preserve_live.1 (solN2, solN2, (3 : Rat))
      (mN20, opN2, opN2) (solN2, solN2, (3 : Rat)) (by rfl)
  · exact c6_candidates_preserve_live.2.1 solC2 solC2 (n1Cands solC2)
      (none, solC2)
      (n1FirstLoop_none solC2 solC2 (by decide) (n1Cands solC2) (fun _ hc => hc))
  · exact c6_candidates_preserve_live.2.2 solN2 solN2 (n2Triples solN2)
      (none, solN2)
      (n2FirstLoop_none solN2 solN2 (n2Triples solN2) (fun _ hc => hc))

/-! ## Claim C10 — local-search acceptance, monotonicity and termination -/

/-- C10 (amended): the driver loop accepts a candidate only when its
evaluation is strictly below the current solution's (so the accepted
objective values strictly decrease); with `MyNeighborhood1` (either method)
and with `MyNeighborhood2.first_better_neighbor` the loop converges
immediately and every later iteration returns the current solution
unchanged.  (`BestNeighborLocalSearch` with `MyNeighborhood2` instead raises,
see the counterexample.) -/
theorem c10_local_search_drivers (cur : Solution) (e : Rat)
    (hd : cur.inst.machines.Pairwise (fun a b => a.machine_id ≠ b.machine_id))
    (he : cur.evaluate = .ok e) :
    (∀ (nb : Solution → Except PyErr Solution) (c s : Solution),
        lsStep nb c = .ok (s, false) →
        ∃ e1 e0, s.evaluate = .ok e1 ∧ c.evaluate = .ok e0 ∧ e1 < e0) ∧
    lsStep MyNeighborhood1.first_better_neighbor_run cur = .ok (cur, true) ∧
    lsStep MyNeighborhood1.best_neighbor_run cur = .ok (cur, true) ∧
    lsStep MyNeighborhood2.first_better_neighbor_run cur = .ok (cur, true) ∧
    (∀ n, 1 ≤ n →
      lsIter MyNeighborhood1.first_better_neighbor_run n cur = .ok (cur, true)) := by
  obtain ⟨cm, hcm⟩ := evaluate_ok_cmax he
  have hstepOf : ∀ (nb : Solution → Except PyErr Solution),
      nb cur = .ok cur → lsStep nb cur = .ok (cur, true) := by
    intro nb hnb
    unfold lsStep
    rw [hnb, exceptBind_ok, he, exceptBind_ok, exceptBind_ok, if_pos le_rfl]
    rfl
  have hfirst : lsStep MyNeighborhood1.first_better_neighbor_run cur = .ok (cur, true) :=
    hstepOf _ (n1_first_eq hd)
  refine ⟨?_, hfirst, hstepOf _ (n1_best_eq hd he), hstepOf _ (n2_first_eq hcm), ?_⟩
  · intro nb c s h
    unfold lsStep at h
    cases hnb : nb c with
    | error err => rw [hnb, exceptBind_error] at h; cases h
    | ok ns =>
      rw [hnb, exceptBind_ok] at h
      cases he1 : ns.evaluate with
      | error err => rw [he1, exceptBind_error] at h; cases h
      | ok e1 =>
        rw [he1, exceptBind_ok] at h
        cases he0 : c.evaluate with
        | error err => rw [he0, exceptBind_error] at h; cases h
        | ok e0 =>
          rw [he0, exceptBind_ok] at h
          split_ifs at h with hle
          · cases h
          · cases h
            exact ⟨e1, e0, he1, rfl, by linarith [not_le.mp hle]⟩
  · intro n hn
    induction n with
    | zero => omega
    | succ k ih =>
      cases Nat.eq_or_lt_of_le hn with
      | inl h1 =>
        have hk : k = 0 := by omega
        subst hk
        unfold lsIter
        unfold lsIter
        rw [exceptBind_ok]
        simpa using hfirst
      | inr h1 =>
        have hk : 1 ≤ k := by omega
        unfold lsIter
        rw [ih hk, exceptBind_ok]
        rfl

/-- C10 counterexample: `BestNeighborLocalSearch`'s loop with `MyNeighborhood2`
raises `AttributeError` on its first iteration at the feasible solution
`solN2` instead of returning the current solution. -/
theorem c10_counterexample :
    lsIter MyNeighborhood2.best_neighbor_run 1 solN2 =
      .error (.attributeError "instance") := by
  rfl

/-- Witness for C10 at `solN2`. -/
theorem c10_witness :
    lsStep MyNeighborhood1.first_better_neighbor_run solN2 = .ok (solN2, true) ∧
    lsIter MyNeighborhood1.first_better_neighbor_run 3 solN2 = .ok (solN2, true) :=
  ⟨(c10_local_search_drivers solN2 3 (by decide) solN2_evaluate).2.1,
   (c10_local_search_drivers solN2 3 (by decide) solN2_evaluate).2.2.2.2 3 (by omega)⟩

/-! ## Helper lemmas for the CSV round trip (C9) -/

/-- The operation row written for an operation. -/
def opRowOf (op : Operation) : OpRow :=
  ⟨op.operation_id, op.assigned_to, op.start_time⟩

theorem to_csv_op_rows_eq (sol : Solution) :
    sol.to_csv_op_rows = (sol.all_operations.filter Operation.assigned).map opRowOf :=
  rfl

/-- The operation state `from_csv` rebuilds for an exported operation. -/
def restoreOp (op : Operation) : Operation :=
  ((Operation.reset op).schedule op.assigned_to op.start_time false).2

/-- Appending machine-file rows to a machine's raw event lists. -/
def appendRows (m : Machine) (rs : List MachRow) : Machine :=
  { m with start_times_raw := m.start_times_raw ++ rs.map (fun r => r.start_time),
           stop_times_raw := m.stop_times_raw ++ rs.map (fun r => r.stop_time) }

theorem machine_set_sched (m : Machine) {l : List Operation}
    (h : l = m.scheduled_operations) :
    { m with scheduled_operations := l } = m := by
  subst h; rfl

theorem appendRows_nil (m : Machine) : appendRows m [] = m := by
  unfold appendRows
  simp

theorem appendRows_cons (m : Machine) (r : MachRow) (rs : List MachRow) :
    appendRows (appendRows m [r]) rs = appendRows m (r :: rs) := by
  unfold appendRows
  simp

/-- Restoring an assigned, admissible operation reproduces its observable
signature. -/
theorem restoreOp_sig (op : Operation)
    (hadm : (optionsLookup op.machine_options op.assigned_to).isSome = true) :
    opSig (restoreOp op) = opSig op ∧
    (restoreOp op).job_id = op.job_id ∧
    (restoreOp op).operation_id = op.operation_id := by
  unfold restoreOp Operation.schedule
  have hra : (Operation.reset op).assigned = false := rfl
  rw [hra]
  cases hl : optionsLookup (Operation.reset op).machine_options op.assigned_to with
  | none =>
    have : optionsLookup op.machine_options op.assigned_to = none := hl
    rw [this] at hadm
    cases hadm
  | some de =>
    simp only [hl, Bool.false_or, Option.isNone_some, Bool.false_eq_true, if_false,
      Bool.false_and]
    unfold opSig Operation.assigned_to Operation.start_time Operation.reset
    simp

/-- `updateOpIn` leaves the machines untouched when no machine holds any
scheduled operation (the state right after `reset`). -/
theorem updateOpIn_machines (s : Solution) (jid oid : Int) (op' : Operation)
    (h : ∀ m ∈ s.inst.machines, m.scheduled_operations = []) :
    (updateOpIn s jid oid op').inst.machines = s.inst.machines := by
  unfold updateOpIn
  simp only
  apply List.map_congr_left ?_ |>.trans (List.map_id _)
  intro m hm
  apply machine_set_sched
  rw [h m hm]
  rfl

/-- `updateOpIn` acts on the flat operation list as a plain map. -/
theorem updateOpIn_operations (s : Solution) (jid oid : Int) (op' : Operation) :
    (updateOpIn s jid oid op').inst.operations =
      s.inst.operations.map (replaceOp jid oid op') := rfl

/-- `map fst` over a zip is a prefix of the first list. -/
theorem zip_map_fst : ∀ (A B : List Int),
    (A.zip B).map (fun p => p.1) = A.take B.length := by
  intro A
  induction A with
  | nil => intro B; simp
  | cons a A ih =>
    intro B
    cases B with
    | nil => simp
    | cons b B => simp [ih B]

/-- `map snd` over a zip is a prefix of the second list. -/
theorem zip_map_snd : ∀ (A B : List Int),
    (A.zip B).map (fun p => p.2) = B.take A.length := by
  intro A
  induction A with
  | nil => intro B; simp
  | cons a A ih =>
    intro B
    cases B with
    | nil => simp
    | cons b B => simp [ih B]

/-- Zipping the mutual prefixes reproduces the zip. -/
theorem zip_take_mutual : ∀ (A B : List Int),
    (A.take B.length).zip (B.take A.length) = A.zip B := by
  intro A
  induction A with
  | nil => intro B; simp
  | cons a A ih =>
    intro B
    cases B with
    | nil => simp
    | cons b B => simp [ih B]

/-- The sorted-events properties are sorted lists. -/
theorem sortedInt_sorted (l : List Int) :
    List.Sorted (fun a b : Int => a ≤ b) (sortedInt l) :=
  List.sorted_insertionSort _ l

/-- Sorting a sorted list is the identity. -/
theorem sortedInt_eq_self {l : List Int}
    (h : List.Sorted (fun a b : Int => a ≤ b) l) : sortedInt l = l :=
  List.Sorted.insertionSort_eq h

/-- A prefix of a sorted list is sorted. -/
theorem sorted_take {l : List Int} (n : Nat)
    (h : List.Sorted (fun a b : Int => a ≤ b) l) :
    List.Sorted (fun a b : Int => a ≤ b) (l.take n) :=
  List.Pairwise.sublist (List.take_sublist n l) h

/-- `restoreOp` preserves the operation's identity. -/
theorem restoreOp_ids (op : Operation) :
    (restoreOp op).operation_id = op.operation_id ∧
      (restoreOp op).job_id = op.job_id := by
  unfold restoreOp Operation.schedule
  split_ifs with h1 h2
  · exact ⟨rfl, rfl⟩
  · exact ⟨rfl, rfl⟩
  · cases optionsLookup (Operation.reset op).machine_options op.assigned_to with
    | none => exact ⟨rfl, rfl⟩
    | some de => cases de; exact ⟨rfl, rfl⟩

/-- Replaying the operation rows restores the operations one by one: the rows
of `todo` (whose resets sit at the end of the current operation list, after an
already-processed prefix `pre` with disjoint ids) rebuild `todo.map restoreOp`
and leave the machines untouched. -/
theorem ops_fold_restore :
    ∀ (todo : List Operation) (s : Solution) (pre : List Operation),
      s.inst.operations = pre ++ todo.map Operation.reset →
      (∀ m ∈ s.inst.machines, m.scheduled_operations = []) →
      (pre.map Operation.operation_id ++
        todo.map Operation.operation_id).Nodup →
      ((todo.map opRowOf).foldl applyOpRow s).inst.operations =
          pre ++ todo.map restoreOp ∧
        ((todo.map opRowOf).foldl applyOpRow s).inst.machines =
          s.inst.machines := by
  intro todo
  induction todo with
  | nil =>
    intro s pre hops hm hnd
    constructor
    · simpa using hops
    · rfl
  | cons x rest ih =>
    intro s pre hops hm hnd
    have hnd' := hnd
    rw [List.map_cons, List.nodup_append] at hnd'
    obtain ⟨hndpre, hndcons, hdisj⟩ := hnd'
    have hxoid_pre : ∀ op ∈ pre, op.operation_id ≠ x.operation_id := by
      intro op hop heq
      exact hdisj (List.mem_map_of_mem _ hop)
        (by rw [heq]; exact List.mem_cons_self _ _)
    have hxoid_rest : ∀ op ∈ rest, op.operation_id ≠ x.operation_id := by
      intro op hop heq
      have := (List.nodup_cons.mp hndcons).1
      exact this (by rw [← heq]; exact List.mem_map_of_mem _ hop)
    have hfind : s.inst.operations.find?
        (fun op => op.operation_id == (opRowOf x).operation_id) =
          some (Operation.reset x) := by
      rw [hops, List.find?_append]
      have h1 : pre.find?
          (fun op => op.operation_id == (opRowOf x).operation_id) = none := by
        rw [List.find?_eq_none]
        intro op hop
        simp only [opRowOf, beq_iff_eq]
        exact hxoid_pre op hop
      rw [h1, Option.none_or, List.map_cons,
        List.find?_cons_of_pos _ (by simp [opRowOf, Operation.reset])]
    have happ : applyOpRow s (opRowOf x) =
        updateOpIn s x.job_id x.operation_id (restoreOp x) := by
      unfold applyOpRow
      rw [show Solution.all_operations s = s.inst.operations from rfl, hfind]
      rfl
    have hops1 : (applyOpRow s (opRowOf x)).inst.operations =
        (pre ++ [restoreOp x]) ++ rest.map Operation.reset := by
      rw [happ, updateOpIn_operations, hops, List.map_cons, List.map_append,
        List.map_cons]
      have hpre : pre.map (replaceOp x.job_id x.operation_id (restoreOp x)) = pre := by
        apply (List.map_congr_left ?_).trans (List.map_id _)
        intro op hop
        show replaceOp x.job_id x.operation_id (restoreOp x) op = id op
        unfold replaceOp
        rw [if_neg (by rintro ⟨-, h2⟩; exact hxoid_pre op hop h2)]
        rfl
      have hhd : replaceOp x.job_id x.operation_id (restoreOp x)
          (Operation.reset x) = restoreOp x := by
        unfold replaceOp
        rw [if_pos ⟨rfl, rfl⟩]
      have htl : (rest.map Operation.reset).map
          (replaceOp x.job_id x.operation_id (restoreOp x)) =
            rest.map Operation.reset := by
        apply (List.map_congr_left ?_).trans (List.map_id _)
        intro op hop
        obtain ⟨y, hy, rfl⟩ := List.mem_map.mp hop
        show replaceOp x.job_id x.operation_id (restoreOp x) (Operation.reset y) =
          id (Operation.reset y)
        unfold replaceOp
        rw [if_neg (by rintro ⟨-, h2⟩; exact hxoid_rest y hy h2)]
        rfl
      rw [hpre, hhd, htl, List.append_assoc, List.singleton_append]
    have hm1 : (applyOpRow s (opRowOf x)).inst.machines = s.inst.machines := by
      rw [happ]
      exact updateOpIn_machines s _ _ _ hm
    have hm1' : ∀ m ∈ (applyOpRow s (opRowOf x)).inst.machines,
        m.scheduled_operations = [] := by
      rw [hm1]; exact hm
    have hnd1 : ((pre ++ [restoreOp x]).map Operation.operation_id ++
        rest.map Operation.operation_id).Nodup := by
      rw [List.map_append]
      simp only [List.map_cons, List.map_nil]
      rw [(restoreOp_ids x).1, List.append_assoc, List.singleton_append]
      exact hnd
    have := ih (applyOpRow s (opRowOf x)) (pre ++ [restoreOp x]) hops1 hm1' hnd1
    rw [List.map_cons, List.foldl_cons]
    refine ⟨?_, ?_⟩
    · rw [this.1, List.append_assoc, List.singleton_append, List.map_cons]
    · rw [this.2, hm1]

/-- `get_machine` succeeds for any id held by a member machine. -/
theorem get_machine_ok {sol : Solution} {m : Machine} {mid : Int}
    (hm : m ∈ sol.inst.machines) (hid : m.machine_id = mid) :
    ∃ m', sol.get_machine mid = .ok m' := by
  have hs : (sol.inst.machines.find? (fun x => x.machine_id == mid)).isSome :=
    List.find?_isSome.mpr ⟨m, hm, by simp [hid]⟩
  unfold Solution.get_machine
  cases hf : sol.inst.machines.find? (fun x => x.machine_id == mid) with
  | none => rw [hf] at hs; cases hs
  | some m' => exact ⟨m', rfl⟩

/-- The per-machine effect of one machine row of `from_csv`. -/
def applyRowMach (r : MachRow) (m : Machine) : Machine :=
  if m.machine_id = r.machine_id then
    { m with start_times_raw := m.start_times_raw ++ [r.start_time],
             stop_times_raw := m.stop_times_raw ++ [r.stop_time] }
  else m

theorem applyRowMach_id (r : MachRow) (m : Machine) :
    (applyRowMach r m).machine_id = m.machine_id := by
  unfold applyRowMach
  split <;> rfl

theorem appendRows_applyRowMach (r : MachRow) (rest : List MachRow) (m : Machine) :
    appendRows (applyRowMach r m)
        (rest.filter (fun r' => r'.machine_id == m.machine_id)) =
      appendRows m ((r :: rest).filter (fun r' => r'.machine_id == m.machine_id)) := by
  unfold applyRowMach
  by_cases hcase : m.machine_id = r.machine_id
  · rw [if_pos hcase]
    have hfil : (r :: rest).filter (fun r' => r'.machine_id == m.machine_id) =
        r :: rest.filter (fun r' => r'.machine_id == m.machine_id) := by
      rw [List.filter_cons_of_pos (by simp [hcase])]
    rw [hfil]
    exact appendRows_cons m r _
  · rw [if_neg hcase]
    have hfil : (r :: rest).filter (fun r' => r'.machine_id == m.machine_id) =
        rest.filter (fun r' => r'.machine_id == m.machine_id) := by
      rw [List.filter_cons_of_neg (by simp; omega)]
    rw [hfil]

/-- Replaying the machine rows: every row is appended to the machines whose id
matches, and nothing else changes. -/
theorem mach_fold :
    ∀ (rows : List MachRow) (s : Solution),
      (∀ row ∈ rows, ∃ m ∈ s.inst.machines, m.machine_id = row.machine_id) →
      ∃ s', rows.foldlM applyMachRow s = .ok s' ∧
        s'.inst.operations = s.inst.operations ∧
        s'.inst.machines = s.inst.machines.map (fun m =>
          appendRows m (rows.filter (fun r => r.machine_id == m.machine_id))) := by
  intro rows
  induction rows with
  | nil =>
    intro s _
    refine ⟨s, rfl, rfl, ?_⟩
    symm
    apply (List.map_congr_left ?_).trans (List.map_id _)
    intro m _
    show appendRows m [] = id m
    rw [appendRows_nil]
    rfl
  | cons r rest ih =>
    intro s h
    obtain ⟨m0, hm0, hid0⟩ := h r (List.mem_cons_self r rest)
    obtain ⟨mg, hmg⟩ := get_machine_ok hm0 hid0
    have happ : applyMachRow s r = .ok
        { s with inst :=
          { s.inst with machines := s.inst.machines.map (applyRowMach r) } } := by
      unfold applyMachRow
      rw [hmg, exceptBind_ok]
      rfl
    have hrest : ∀ row ∈ rest, ∃ m ∈ (s.inst.machines.map (applyRowMach r)),
        m.machine_id = row.machine_id := by
      intro row hrow
      obtain ⟨m1, hm1, hid1⟩ := h row (List.mem_cons_of_mem r hrow)
      exact ⟨applyRowMach r m1, List.mem_map_of_mem _ hm1,
        by rw [applyRowMach_id]; exact hid1⟩
    obtain ⟨s2, hs2, hops2, hmach2⟩ :=
      ih { s with inst :=
        { s.inst with machines := s.inst.machines.map (applyRowMach r) } } hrest
    refine ⟨s2, ?_, hops2, ?_⟩
    · rw [List.foldlM_cons, happ, exceptBind_ok]
      exact hs2
    · rw [hmach2]
      simp only [List.map_map]
      apply List.map_congr_left
      intro m _
      show appendRows (applyRowMach r m) (rest.filter
        (fun r' => r'.machine_id == (applyRowMach r m).machine_id)) = _
      rw [applyRowMach_id]
      exact appendRows_applyRowMach r rest m

/-- Every row a machine contributes to the machine file carries its id. -/
theorem csv_rows_id {m : Machine} {r : MachRow} (hr : r ∈ m.csv_rows) :
    r.machine_id = m.machine_id := by
  unfold Machine.csv_rows at hr
  obtain ⟨p, _, rfl⟩ := List.mem_map.mp hr
  rfl

/-- With distinct machine ids, filtering the whole machine file by one
machine's id recovers exactly that machine's rows. -/
theorem rows_filter_self :
    ∀ {M : List Machine}, (M.map Machine.machine_id).Nodup →
      ∀ m ∈ M, ((M.map Machine.csv_rows).flatten.filter
        (fun r => r.machine_id == m.machine_id)) = m.csv_rows := by
  intro M
  induction M with
  | nil => intro _ m hm; cases hm
  | cons a M ih =>
    intro hnd m hm
    rw [List.map_cons] at hnd
    obtain ⟨hna, hndM⟩ := List.nodup_cons.mp hnd
    rw [List.map_cons, List.flatten_cons, List.filter_append]
    rcases List.mem_cons.mp hm with rfl | hm'
    · have h1 : m.csv_rows.filter (fun r => r.machine_id == m.machine_id) =
          m.csv_rows := by
        apply List.filter_eq_self.mpr
        intro r hr
        simp [csv_rows_id hr]
      have h2 : (M.map Machine.csv_rows).flatten.filter
          (fun r => r.machine_id == m.machine_id) = [] := by
        apply List.filter_eq_nil_iff.mpr
        intro r hr
        obtain ⟨rows, hrows, hrmem⟩ := List.mem_flatten.mp hr
        obtain ⟨m1, hm1, rfl⟩ := List.mem_map.mp hrows
        have hne : m1.machine_id ≠ m.machine_id := by
          intro heq
          exact hna (by rw [← heq]; exact List.mem_map_of_mem _ hm1)
        simp [csv_rows_id hrmem, hne]
      rw [h1, h2, List.append_nil]
    · have hne : a.machine_id ≠ m.machine_id := by
        intro heq
        exact hna (by rw [heq]; exact List.mem_map_of_mem _ hm')
      have h1 : a.csv_rows.filter (fun r => r.machine_id == m.machine_id) = [] := by
        apply List.filter_eq_nil_iff.mpr
        intro r hr
        simp [csv_rows_id hr, hne]
      rw [h1, List.nil_append]
      exact ih hndM m hm'

/-- A machine's sorted stop-times property is sorted. -/
theorem stop_times_sorted (m : Machine) :
    List.Sorted (fun a b : Int => a ≤ b) m.stop_times := by
  unfold Machine.stop_times
  split <;> exact sortedInt_sorted _

/-- Rebuilding a reset machine from its exported rows restores its observable
signature (id and start/stop pairs). -/
theorem machSig_restore (m : Machine) :
    machSig (appendRows (Machine.reset m) m.csv_rows) = machSig m := by
  have hstartraw : (appendRows (Machine.reset m) m.csv_rows).start_times_raw =
      m.start_times.take m.stop_times.length := by
    show [] ++ (m.csv_rows.map (fun r => r.start_time)) = _
    rw [List.nil_append]
    unfold Machine.csv_rows
    rw [List.map_map]
    exact zip_map_fst m.start_times m.stop_times
  have hstopraw : (appendRows (Machine.reset m) m.csv_rows).stop_times_raw =
      m.stop_times.take m.start_times.length := by
    show [] ++ (m.csv_rows.map (fun r => r.stop_time)) = _
    rw [List.nil_append]
    unfold Machine.csv_rows
    rw [List.map_map]
    exact zip_map_snd m.start_times m.stop_times
  have hlen : (appendRows (Machine.reset m) m.csv_rows).stop_times_raw.length =
      (appendRows (Machine.reset m) m.csv_rows).start_times_raw.length := by
    rw [hstartraw, hstopraw, List.length_take, List.length_take, Nat.min_comm]
  have hid : (appendRows (Machine.reset m) m.csv_rows).machine_id =
      m.machine_id := rfl
  have hstart : (appendRows (Machine.reset m) m.csv_rows).start_times =
      m.start_times.take m.stop_times.length := by
    unfold Machine.start_times
    rw [hstartraw]
    exact sortedInt_eq_self (sorted_take _ (sortedInt_sorted _))
  have hstop : (appendRows (Machine.reset m) m.csv_rows).stop_times =
      m.stop_times.take m.start_times.length := by
    unfold Machine.stop_times
    rw [if_neg (by rw [hlen]; omega)]
    rw [hstopraw]
    exact sortedInt_eq_self (sorted_take _ (stop_times_sorted m))
  unfold machSig
  rw [hid, hstart, hstop, zip_take_mutual]

/-! ## Claim C9 — the CSV round trip -/

/-- C9 (amended): for a fully assigned solution whose assigned machines are
admissible, whose operation ids are pairwise distinct and whose machine ids
are pairwise distinct, exporting, resetting and re-importing restores every
operation's machine assignment and start time and every machine's
`(start_time, stop_time)` pairs. -/
theorem c9_roundtrip (sol : Solution)
    (hall : ∀ op ∈ sol.inst.operations, op.assigned = true)
    (hadm : ∀ op ∈ sol.inst.operations,
      (optionsLookup op.machine_options op.assigned_to).isSome = true)
    (hoid : (sol.inst.operations.map Operation.operation_id).Nodup)
    (hmid : (sol.inst.machines.map Machine.machine_id).Nodup) :
    ((Solution.reset sol).from_csv sol.to_csv_op_rows sol.to_csv_mach_rows).map
        (fun s' => s'.inst.operations.map opSig) =
      .ok (sol.inst.operations.map opSig) ∧
    ((Solution.reset sol).from_csv sol.to_csv_op_rows sol.to_csv_mach_rows).map
        (fun s' => s'.inst.machines.map machSig) =
      .ok (sol.inst.machines.map machSig) := by
  have hrows_op : sol.to_csv_op_rows = sol.inst.operations.map opRowOf := by
    rw [to_csv_op_rows_eq]
    congr 1
    exact List.filter_eq_self.mpr hall
  have hreset_ops : (Solution.reset sol).inst.operations =
      [] ++ sol.inst.operations.map Operation.reset := by
    rw [List.nil_append]; rfl
  have hreset_mach : ∀ m ∈ (Solution.reset sol).inst.machines,
      m.scheduled_operations = [] := by
    intro m hm
    obtain ⟨m0, _, rfl⟩ := List.mem_map.mp hm
    rfl
  have hnd0 : (([] : List Operation).map Operation.operation_id ++
      sol.inst.operations.map Operation.operation_id).Nodup := by
    simpa using hoid
  obtain ⟨hopsF, hmachF⟩ := ops_fold_restore sol.inst.operations
    (Solution.reset sol) [] hreset_ops hreset_mach hnd0
  rw [List.nil_append] at hopsF
  set sF := (sol.inst.operations.map opRowOf).foldl applyOpRow (Solution.reset sol)
    with hsF
  have hmachF' : sF.inst.machines = sol.inst.machines.map Machine.reset := by
    rw [hmachF]; rfl
  have hrow_mach : ∀ row ∈ sol.to_csv_mach_rows,
      ∃ m ∈ sF.inst.machines, m.machine_id = row.machine_id := by
    intro row hrow
    unfold Solution.to_csv_mach_rows at hrow
    obtain ⟨rows, hrows, hrmem⟩ := List.mem_flatten.mp hrow
    obtain ⟨m0, hm0, rfl⟩ := List.mem_map.mp hrows
    refine ⟨Machine.reset m0, ?_, csv_rows_id hrmem |>.symm ▸ rfl⟩
    rw [hmachF']
    exact List.mem_map_of_mem _ hm0
  obtain ⟨s2, hfold2, hops2, hmach2⟩ := mach_fold sol.to_csv_mach_rows sF hrow_mach
  have hfc : (Solution.reset sol).from_csv sol.to_csv_op_rows sol.to_csv_mach_rows =
      .ok s2 := by
    unfold Solution.from_csv
    rw [hrows_op, ← hsF]
    exact hfold2
  constructor
  · rw [hfc]
    show Except.ok (s2.inst.operations.map opSig) = _
    rw [hops2, hopsF, List.map_map]
    congr 1
    apply List.map_congr_left
    intro op hop
    exact (restoreOp_sig op (hadm op hop)).1
  · rw [hfc]
    show Except.ok (s2.inst.machines.map machSig) = _
    rw [hmach2, hmachF', List.map_map, List.map_map]
    congr 1
    apply List.map_congr_left
    intro m0 hm0
    show machSig (appendRows (Machine.reset m0) (sol.to_csv_mach_rows.filter
      (fun r => r.machine_id == (Machine.reset m0).machine_id))) = machSig m0
    have hfil : sol.to_csv_mach_rows.filter
        (fun r => r.machine_id == (Machine.reset m0).machine_id) =
          m0.csv_rows := by
      show sol.to_csv_mach_rows.filter
        (fun r => r.machine_id == m0.machine_id) = m0.csv_rows
      exact rows_filter_self hmid m0 hm0
    rw [hfil]
    exact machSig_restore m0

/-- First operation of the C9 counterexample: job 0, operation id 7. -/
def opX : Operation :=
  { job_id := 0, operation_id := 7, predecessors := [],
    machine_options := [(0, 5, 1)], schedule_info := some ⟨0, 0, 5, 1⟩ }

/-- Second operation of the C9 counterexample: job 1, the **same** operation
id 7 (ids are only unique per job in the instance format). -/
def opY : Operation :=
  { job_id := 1, operation_id := 7, predecessors := [],
    machine_options := [(0, 5, 1)], schedule_info := some ⟨0, 5, 5, 1⟩ }

/-- `opY` after `reset`, never re-scheduled by the replay. -/
def opYr : Operation :=
  { job_id := 1, operation_id := 7, predecessors := [],
    machine_options := [(0, 5, 1)], schedule_info := none }

/-- The machine of the C9 counterexample. -/
def mC9 : Machine :=
  { machine_id := 0, set_up_time := 0, set_up_energy := 0, tear_down_time := 0,
    tear_down_energy := 0, min_consumption := 0, end_time := 100,
    scheduled_operations := [opX, opY], start_times_raw := [],
    stop_times_raw := [], available_time := 10 }

/-- A feasible solution whose two jobs reuse operation id 7. -/
def solC9 : Solution :=
  { inst := { machines := [mC9],
              jobs := [{ job_id := 0, operations := [opX] },
                       { job_id := 1, operations := [opY] }],
              operations := [opX, opY] },
    alpha := 1/2, beta := 1/2 }

/-- What the round trip actually produces on `solC9`: both rows carry
operation id 7, the import resolves both to `opX` (the first match), so `opY`
stays unassigned. -/
def solC9r : Solution :=
  { inst := { machines := [Machine.reset mC9],
              jobs := [{ job_id := 0, operations := [opX] },
                       { job_id := 1, operations := [opYr] }],
              operations := [opX, opYr] },
    alpha := 1/2, beta := 1/2 }

/-- C9 counterexample: on the feasible solution `solC9`, whose operation ids
collide across jobs, the export/reset/import round trip loses `opY`'s
assignment (the claim promises identical assignments for every feasible
solution). -/
theorem c9_counterexample :
    Solution.is_feasible solC9 = true ∧
    (Solution.reset solC9).from_csv solC9.to_csv_op_rows solC9.to_csv_mach_rows =
      .ok solC9r ∧
    solC9r.inst.operations.map opSig ≠ solC9.inst.operations.map opSig := by
  refine ⟨rfl, rfl, by decide⟩

/-- Witness for C9 at `solN2`. -/
theorem c9_witness :
    ((Solution.reset solN2).from_csv solN2.to_csv_op_rows solN2.to_csv_mach_rows).map
        (fun s' => s'.inst.operations.map opSig) =
      .ok (solN2.inst.operations.map opSig) ∧
    ((Solution.reset solN2).from_csv solN2.to_csv_op_rows solN2.to_csv_mach_rows).map
        (fun s' => s'.inst.machines.map machSig) =
      .ok (solN2.inst.machines.map machSig) :=
  c9_roundtrip solN2 (by decide) (by decide) (by decide) (by decide)

end JSP
